import Mathlib

/-!
Verification of the audionova playback engine against its specification.

This file gives a shallow embedding, in Lean 4, of the parts of the
TypeScript source that the specification's claims are about:

* `src/utils/audioSourceOptimizer.ts` — the source selector
  (`selectOptimalAudioSource`),
* `src/utils/apiRateLimit.ts` — the resilience layer (`shouldDelay`,
  `recordFailure`, `makeRateLimitedCall`),
* `src/context/MusicContext.tsx` — the playback controller
  (`proceedWithPlayback`, `playSong`, `playNext`, `seekTo`, the `ended`
  event handler),
* the `AudioProcessor` class — the processing graph (`dispose`).

JavaScript numbers used as timestamps, counters and indices are modelled
as `Nat`/`Int`; transport times (which may be fractional or NaN) as a
small wrapper around `Rat`.  JavaScript truthiness of optional strings
and of optional bitrate numbers is modelled explicitly.  Randomness
(`Math.floor(Math.random() * n)`) is modelled by a `pick : Nat`
parameter reduced modulo the pool size; the postcondition of the
source's `do/while` re-draw loops is captured by explicit admissibility
hypotheses on `pick`.
-/

/-! ## String helpers (JavaScript `includes`, `trim`, truthiness) -/

/-- Does the first list occur as a prefix of the second (char lists)? -/
def chListStarts : List Char → List Char → Bool
  | [], _ => true
  | _ :: _, [] => false
  | a :: as, b :: bs => a == b && chListStarts as bs

/-- Does `sub` occur as a contiguous sublist of the second argument? -/
def chListHasSub (sub : List Char) : List Char → Bool
  | [] => chListStarts sub []
  | c :: cs => chListStarts sub (c :: cs) || chListHasSub sub cs

/-- JavaScript `s.includes(sub)`. -/
def strIncludes (s sub : String) : Bool :=
  chListHasSub sub.data s.data

/-- Drop leading whitespace from a char list. -/
def dropLeadingWs (l : List Char) : List Char :=
  match l with
  | [] => []
  | c :: cs => if c.isWhitespace then dropLeadingWs cs else c :: cs

/-- JavaScript `s.trim()`: strip leading and trailing whitespace. -/
def jsTrim (s : String) : String :=
  String.mk ((dropLeadingWs (dropLeadingWs s.data.reverse).reverse))

/-- JavaScript truthiness of an optional string (`undefined` and `''` are falsy). -/
def strTruthy : Option String → Bool
  | none => false
  | some s => s ≠ ""

/-- JavaScript `s.toLowerCase()` (over the ASCII range the source's
quality tags and URLs use). -/
def jsToLower (s : String) : String :=
  String.mk (s.data.map Char.toLower)

/-! ## Source selector (`src/utils/audioSourceOptimizer.ts`) -/

/-- The quality tier vocabulary of `AudioQuality['quality']`. -/
inductive Quality where
  | low
  | medium
  | high
  | unknown
deriving DecidableEq, Repr

/-- One entry of a track's `downloadUrl` array as consumed by
`selectOptimalAudioSource`: a stream link and a quality descriptor,
either of which may be absent. -/
structure RawCandidate where
  link : Option String
  quality : Option String
deriving DecidableEq, Repr

/-- A parsed audio candidate (interface `AudioQuality`). -/
structure AudioQuality where
  url : String
  bitrate : Option Nat
  format : String
  quality : Quality
deriving DecidableEq, Repr

/-- The selector's decision record (interface `AudioSourceInfo`). -/
structure AudioSourceInfo where
  selectedUrl : String
  detectedQuality : Quality
  detectedBitrate : Option Nat
  detectedFormat : Option String
  availableQualities : List AudioQuality
deriving DecidableEq, Repr

/-- The filter `item && item.link && item.link.trim() !== ''` applied to
`downloadUrls` before parsing. -/
def rawValid (c : RawCandidate) : Bool :=
  match c.link with
  | none => false
  | some l => l ≠ "" && jsTrim l ≠ ""

/-- The quality-tag cascade of `selectOptimalAudioSource` (lines 45-68):
maps the lower-cased quality descriptor to a tier and estimated bitrate. -/
def parseQualityTag (qualityLower : String) : Quality × Option Nat :=
  if strIncludes qualityLower "320" || qualityLower == "320kbps" || qualityLower == "high" then
    (.high, some 320)
  else if strIncludes qualityLower "256" || qualityLower == "256kbps" then
    (.high, some 256)
  else if strIncludes qualityLower "160" || qualityLower == "160kbps" || qualityLower == "medium" then
    (.medium, some 160)
  else if strIncludes qualityLower "128" || qualityLower == "128kbps" then
    (.medium, some 128)
  else if strIncludes qualityLower "96" || qualityLower == "96kbps" || qualityLower == "low" then
    (.low, some 96)
  else if strIncludes qualityLower "64" || qualityLower == "64kbps" then
    (.low, some 64)
  else
    (.unknown, none)

/-- The URL-pattern fallback of `selectOptimalAudioSource` (lines 71-89),
consulted only when the tag was unparseable. -/
def parseUrlPattern (urlLower : String) : Quality × Option Nat :=
  if strIncludes urlLower "_320." || strIncludes urlLower "320kbps" then
    (.high, some 320)
  else if strIncludes urlLower "_256." || strIncludes urlLower "256kbps" then
    (.high, some 256)
  else if strIncludes urlLower "_160." || strIncludes urlLower "160kbps" then
    (.medium, some 160)
  else if strIncludes urlLower "_128." || strIncludes urlLower "128kbps" then
    (.medium, some 128)
  else if strIncludes urlLower "_96." || strIncludes urlLower "96kbps" then
    (.low, some 96)
  else
    (.unknown, none)

/-- Container-format heuristic on the raw URL (lines 92-99). -/
def detectFormat (url : String) : String :=
  if strIncludes url ".m4a" || strIncludes url "aac" then "aac"
  else if strIncludes url ".opus" then "opus"
  else if strIncludes url ".mp4" then "mp4"
  else "mp3"

/-- Parsing of one (already filtered) candidate: the `.map` body of
`selectOptimalAudioSource` (lines 37-107).  `item.quality || 'unknown'`
is JavaScript truthiness defaulting. -/
def parseCandidate (c : RawCandidate) : AudioQuality :=
  let url := c.link.getD ""
  let quality := match c.quality with
    | some q => if q = "" then "unknown" else q
    | none => "unknown"
  let tagRes := parseQualityTag (jsToLower quality)
  let res := if tagRes.1 = Quality.unknown ∧ url ≠ "" then parseUrlPattern (jsToLower url) else tagRes
  { url := url
    bitrate := res.2
    format := detectFormat url
    quality := res.1 }

/-- The `qualityPriority` table: `high > medium > low > unknown`. -/
def qualityPriority : Quality → Int
  | .high => 4
  | .medium => 3
  | .low => 2
  | .unknown => 1

/-- JavaScript truthiness of the optional bitrate (`0` and `undefined` falsy). -/
def bitTruthy : Option Nat → Bool
  | none => false
  | some n => n ≠ 0

/-- The sort comparator of `selectOptimalAudioSource` (lines 112-126),
returned value negative when `a` sorts before `b`. -/
def candCmp (a b : AudioQuality) : Int :=
  let priorityDiff := qualityPriority b.quality - qualityPriority a.quality
  if priorityDiff ≠ 0 then priorityDiff
  else if bitTruthy a.bitrate ∧ bitTruthy b.bitrate then
    (b.bitrate.getD 0 : Int) - (a.bitrate.getD 0 : Int)
  else if bitTruthy a.bitrate ∧ ¬ bitTruthy b.bitrate then -1
  else if ¬ bitTruthy a.bitrate ∧ bitTruthy b.bitrate then 1
  else 0

/-- `a` may be placed no later than `b` by the comparator. -/
def candLe (a b : AudioQuality) : Prop := candCmp a b ≤ 0

instance : DecidableRel candLe := fun a b => inferInstanceAs (Decidable (candCmp a b ≤ 0))

/-- The comparator's effective sort key: tier priority first, then the
bitrate (with a falsy bitrate counting as `0`). -/
def candKey (a : AudioQuality) : Int × Int :=
  (qualityPriority a.quality, (a.bitrate.getD 0 : Int))

/-- The comparator is exactly the lexicographic descending order on `candKey`. -/
theorem candLe_iff (a b : AudioQuality) :
    candLe a b ↔
      ((candKey b).1 < (candKey a).1 ∨
        ((candKey a).1 = (candKey b).1 ∧ (candKey b).2 ≤ (candKey a).2)) := by
  unfold candLe candCmp candKey
  rcases ha : a.bitrate with _ | na <;> rcases hb : b.bitrate with _ | nb <;>
    simp only [bitTruthy, Option.getD] <;>
    by_cases hq : qualityPriority b.quality - qualityPriority a.quality = 0 <;>
    simp [hq] <;> omega

instance : IsTotal AudioQuality candLe where
  total a b := by
    rw [candLe_iff, candLe_iff]
    omega

instance : IsTrans AudioQuality candLe where
  trans a b c hab hbc := by
    rw [candLe_iff] at *
    omega

/-- `selectOptimalAudioSource` (lines 26-145).  The source sorts the
parsed candidate array in place with `candCmp` and returns its first
element; any comparator-consistent sort produces the same sorted
permutation, modelled here with insertion sort over `candLe`.  The
returned `availableQualities` aliases the (sorted-in-place) array. -/
def selectOptimalAudioSource (downloadUrls : List RawCandidate) : AudioSourceInfo :=
  if downloadUrls.length = 0 then
    { selectedUrl := ""
      detectedQuality := .unknown
      detectedBitrate := none
      detectedFormat := none
      availableQualities := [] }
  else
    let audioQualities := (downloadUrls.filter rawValid).map parseCandidate
    let sortedQualities := List.insertionSort candLe audioQualities
    match sortedQualities with
    | [] =>
      { selectedUrl := ""
        detectedQuality := .unknown
        detectedBitrate := none
        detectedFormat := none
        availableQualities := [] }
    | selectedAudio :: _ =>
      { selectedUrl := selectedAudio.url
        detectedQuality := selectedAudio.quality
        detectedBitrate := selectedAudio.bitrate
        detectedFormat := some selectedAudio.format
        availableQualities := sortedQualities }

/-! ## Resilience layer (`src/utils/apiRateLimit.ts`) -/

/-- Per-endpoint tracking record (interface `RateLimitInfo`). -/
structure RateLimitInfo where
  lastCall : Nat
  callCount : Nat
  resetTime : Nat
deriving DecidableEq, Repr

/-- `DEFAULT_DELAY = 500` ms minimum spacing between calls. -/
def DEFAULT_DELAY : Int := 500

/-- `MAX_CALLS_PER_MINUTE = 60`, the per-window cap. -/
def MAX_CALLS_PER_MINUTE : Nat := 60

/-- `RESET_INTERVAL = 60 * 1000` ms window length. -/
def RESET_INTERVAL : Nat := 60000

/-- The `limits` map of `RateLimitManager`, keyed by endpoint name. -/
def RLState : Type := String → Option RateLimitInfo

/-- The empty map (a fresh `RateLimitManager`). -/
def RLState.empty : RLState := fun _ => none

/-- `limits.set(endpoint, info)`. -/
def RLState.set (st : RLState) (endpoint : String) (info : RateLimitInfo) : RLState :=
  fun e => if e = endpoint then some info else st e

/-- `RateLimitManager.shouldDelay` (lines 21-59), with the current clock
reading `now` passed explicitly.  Returns the recommended delay and the
updated map (the source mutates `this.limits` in place). -/
def shouldDelay (now : Nat) (endpoint : String) (st : RLState) : Int × RLState :=
  match st endpoint with
  | none =>
    (0, st.set endpoint { lastCall := now, callCount := 1, resetTime := now + RESET_INTERVAL })
  | some info =>
    if now > info.resetTime then
      (0, st.set endpoint { lastCall := now, callCount := 1, resetTime := now + RESET_INTERVAL })
    else if info.callCount ≥ MAX_CALLS_PER_MINUTE then
      ((info.resetTime : Int) - (now : Int), st)
    else
      let timeSinceLastCall : Int := (now : Int) - (info.lastCall : Int)
      let suggestedDelay := max 0 (DEFAULT_DELAY - timeSinceLastCall)
      (suggestedDelay,
        st.set endpoint { lastCall := now, callCount := info.callCount + 1, resetTime := info.resetTime })

/-- `RateLimitManager.recordFailure` (lines 64-74): on status 403 only,
and only for an endpoint that already has an entry, extend the reset
window to double the default and saturate the counter. -/
def recordFailure (now : Nat) (endpoint : String) (statusCode : Nat) (st : RLState) : RLState :=
  if statusCode = 403 then
    match st endpoint with
    | none => st
    | some info =>
      st.set endpoint
        { lastCall := info.lastCall
          callCount := MAX_CALLS_PER_MINUTE
          resetTime := now + RESET_INTERVAL * 2 }
  else st

/-- Outcome of one invocation of the wrapped `apiCall`: success, or a
rejection carrying `error?.response?.status` when present. -/
inductive AttemptResult (α : Type) where
  | ok (v : α)
  | fail (status : Option Nat)
deriving DecidableEq, Repr

/-- What `makeRateLimitedCall` ultimately throws: either the underlying
error of some attempt (rethrown), or the function's final
retries-exhausted error message (line 151 of the source). -/
inductive CallError where
  | underlying (attempt : Nat) (status : Option Nat)
  | retriesExhausted (endpoint : String) (maxRetries : Nat)
deriving DecidableEq, Repr

/-- The observable result of a `makeRateLimitedCall` run. -/
structure RunResult (α : Type) where
  outcome : Except CallError α
  invocations : Nat
  backoffs : List Nat
  finalNow : Nat
  finalSt : RLState

/-- The `for (attempt = 0; attempt <= maxRetries; attempt++)` loop of
`makeRateLimitedCall` (lines 120-149).  `fuel` is the number of loop
iterations still permitted (`maxRetries + 1 - attempt`); when it runs
out the loop falls through to the final throw (line 151).  `results k`
is the outcome of the `k`-th invocation of `apiCall`; awaited timeouts
advance the clock by their duration. -/
def runAttempts (endpoint : String) (maxRetries retryDelay : Nat)
    (results : Nat → AttemptResult α) :
    Nat → Nat → Nat → RLState → RunResult α
  | 0, _, now, st =>
    { outcome := .error (.retriesExhausted endpoint maxRetries)
      invocations := 0, backoffs := [], finalNow := now, finalSt := st }
  | fuel + 1, attempt, now, st =>
    let d := shouldDelay now endpoint st
    let st1 := d.2
    let now1 := if 0 < d.1 then now + d.1.toNat else now
    match results attempt with
    | .ok v =>
      { outcome := .ok v, invocations := 1, backoffs := [], finalNow := now1, finalSt := st1 }
    | .fail status =>
      let st2 := match status with
        | some code => recordFailure now1 endpoint code st1
        | none => st1
      if status = some 403 ∧ attempt < maxRetries then
        let w := retryDelay * (attempt + 1)
        let rest := runAttempts endpoint maxRetries retryDelay results fuel (attempt + 1) (now1 + w) st2
        { outcome := rest.outcome
          invocations := rest.invocations + 1
          backoffs := w :: rest.backoffs
          finalNow := rest.finalNow
          finalSt := rest.finalSt }
      else
        { outcome := .error (.underlying attempt status)
          invocations := 1, backoffs := [], finalNow := now1, finalSt := st2 }

/-- `makeRateLimitedCall(endpoint, apiCall, {maxRetries, retryDelay})`
(lines 110-152) started at clock `now` over manager state `st`. -/
def makeRateLimitedCall (endpoint : String) (maxRetries retryDelay : Nat)
    (results : Nat → AttemptResult α) (now : Nat) (st : RLState) : RunResult α :=
  runAttempts endpoint maxRetries retryDelay results (maxRetries + 1) 0 now st

/-! ## Playback controller (`src/context/MusicContext.tsx`) -/

/-- The `Song` record (interface at lines 7-20), restricted to the
fields the playback engine reads: identity, the legacy `url` field, the
`downloadUrl` candidate array, and the language tag. -/
structure Song where
  id : String
  name : String
  url : String
  downloadUrl : Option (List RawCandidate)
  language : Option String
deriving DecidableEq, Repr

/-- The `Playlist` record (interface at lines 22-28). -/
structure Playlist where
  id : String
  name : String
  tracks : List Song
  currentIndex : Option Int
  language : Option String
deriving DecidableEq, Repr

/-- The platform media handle (`HTMLAudioElement`) as the controller
observes and drives it. -/
structure AudioEl where
  src : String
  currentTime : Rat
  paused : Bool
  volume : Rat
deriving DecidableEq, Repr

/-- `repeatMode : 'none' | 'one' | 'all'`. -/
inductive RepeatMode where
  | none
  | one
  | all
deriving DecidableEq, Repr

/-- Resolution of the platform's asynchronous `audio.play()` promise,
as discriminated by the `attemptPlay` handler (lines 538-559). -/
inductive PlayOutcome where
  | ok
  | aborted
  | notAllowed
  | notSupported
  | networkErr
  | failed (msg : String)
deriving DecidableEq, Repr

/-- A JavaScript `number` used as a transport time: possibly `NaN`. -/
inductive JSNum where
  | nan
  | num (x : Rat)
deriving DecidableEq, Repr

/-- The provider's playback state (the `useState` slots the claims are
about, plus the media handle). -/
structure PState where
  currentSong : Option Song
  isPlaying : Bool
  queue : List Song
  queueIndex : Int
  activePlaylist : Option Playlist
  repeatMode : RepeatMode
  isShuffle : Bool
  volume : Rat
  currentTime : Rat
  duration : Rat
  error : Option String
  currentAudioInfo : Option AudioSourceInfo
  audio : Option AudioEl
deriving DecidableEq, Repr

/-- JavaScript `list[i]` for a possibly out-of-range signed index. -/
def listGetI {α : Type} (l : List α) (i : Int) : Option α :=
  if 0 ≤ i then l.get? i.toNat else none

/-- The legacy-URL fallback decision built at lines 465-469. -/
def fallbackInfo (url : String) : AudioSourceInfo :=
  { selectedUrl := url
    detectedQuality := .unknown
    detectedBitrate := none
    detectedFormat := none
    availableQualities := [] }

/-- The source-resolution ladder of `proceedWithPlayback` (lines
453-476): a non-empty `downloadUrl` array goes to the optimizer, else a
truthy non-blank `song.url` is used as-is, else no source resolves. -/
def resolveAudioInfo (song : Song) : Option AudioSourceInfo :=
  match song.downloadUrl with
  | some urls =>
    if 0 < urls.length then some (selectOptimalAudioSource urls)
    else if song.url ≠ "" ∧ jsTrim song.url ≠ "" then some (fallbackInfo song.url)
    else none
  | none =>
    if song.url ≠ "" ∧ jsTrim song.url ≠ "" then some (fallbackInfo song.url)
    else none

/-- The error string set by `proceedWithPlayback` when no source resolves. -/
def noAudioUrlMsg : String := "Cannot play song: No audio URL available"

/-- Application of the resolved `audio.play()` promise handler
(lines 526-559) to the state. -/
def applyPlayOutcome (po : PlayOutcome) (s : PState) : PState :=
  match po with
  | .ok => { s with isPlaying := true, audio := s.audio.map (fun a => { a with paused := false }) }
  | .aborted => s
  | .notAllowed =>
    { s with error := some "Playback not allowed. Please click play to start.", isPlaying := false }
  | .notSupported =>
    { s with error := some "Audio format not supported", isPlaying := false }
  | .networkErr =>
    { s with error := some "Network error: Unable to load audio", isPlaying := false }
  | .failed msg =>
    { s with error := some ("Failed to play song: " ++ msg), isPlaying := false }

/-- `proceedWithPlayback` (lines 449-571): resolve a source (failing
with `noAudioUrlMsg` and no other state change when none resolves or
the resolved URL is blank), then commit the song and decision, reset
and re-point the media handle, and apply the play-promise outcome.
The best-effort analytics emission does not touch playback state. -/
def proceedWithPlayback (po : PlayOutcome) (song : Song) (s : PState) : PState :=
  match resolveAudioInfo song with
  | none => { s with error := some noAudioUrlMsg }
  | some info =>
    if info.selectedUrl = "" ∨ jsTrim info.selectedUrl = "" then
      { s with error := some noAudioUrlMsg }
    else
      let s1 := { s with error := none, currentSong := some song, currentAudioInfo := some info }
      match s1.audio with
      | none => s1
      | some a =>
        let a1 := if ¬ a.paused then { a with paused := true } else a
        let a2 := { a1 with currentTime := 0, src := info.selectedUrl, volume := s.volume }
        applyPlayOutcome po { s1 with audio := some a2 }

/-- `playSong` (lines 421-446): drops an absent song, else proceeds. -/
def playSong (po : PlayOutcome) (song? : Option Song) (s : PState) : PState :=
  match song? with
  | none => s
  | some song => proceedWithPlayback po song s

/-- The stop sequence shared by `playNext`'s end-of-queue and
empty-queue branches (lines 738-742 and 768-772): clear the playing
flag, pause the handle and rewind it to 0. -/
def stopPlayback (s : PState) : PState :=
  { s with isPlaying := false
           audio := s.audio.map (fun a => { a with paused := true, currentTime := 0 }) }

/-- The truthy language tag of the active playlist
(`currentPlaylist?.language`, with `undefined` and `''` falsy). -/
def playlistLanguage (p? : Option Playlist) : Option String :=
  match p? with
  | some p =>
    match p.language with
    | some l => if l = "" then none else some l
    | none => none
  | none => none

/-- The `sameLanguageSongs` pool of `playNext` (lines 701-703): the
enumerated track list restricted to entries whose song language equals
the active playlist's language tag. -/
def langPool (tracks : List Song) (lang : String) : List (Nat × Song) :=
  tracks.enum.filter (fun e => e.2.language == some lang)

/-- `currentSongLanguageIndex` (line 707): the position of the current
playlist index inside the pool, `-1` when the current track is not in
the pool (JavaScript `findIndex`). -/
def langCurPos (pool : List (Nat × Song)) (playlistIndex : Int) : Int :=
  match pool.findIdx? (fun e => (e.1 : Int) == playlistIndex) with
  | some k => (k : Int)
  | none => -1

/-- `playNext` (lines 674-774).  `pick` abstracts the settled value of
the `Math.floor(Math.random() * n)` draw, reduced modulo the drawn-from
pool's size; the exit condition of the source's `do/while` re-draw
loops is stated as a separate admissibility hypothesis where a claim
needs it.  A `none` next index encodes the early-return stop path. -/
def playNext (po : PlayOutcome) (pick : Nat) (s : PState) : PState :=
  let playlistToUse := match s.activePlaylist with
    | some p => p.tracks
    | none => s.queue
  let playlistIndex : Int := match s.activePlaylist with
    | some p =>
      match p.currentIndex with
      | some i => i
      | none => s.queueIndex
    | none => s.queueIndex
  if 0 < playlistToUse.length ∧ 0 ≤ playlistIndex then
    let nextIndexOpt : Option Int :=
      if s.isShuffle ∧ 1 < playlistToUse.length then
        match playlistLanguage s.activePlaylist with
        | some lang =>
          let sameLanguageSongs := langPool playlistToUse lang
          if 1 < sameLanguageSongs.length then
            match sameLanguageSongs.get? (pick % sameLanguageSongs.length) with
            | some e => some (e.1 : Int)
            | none => none
          else
            let n := playlistIndex + 1
            some (if (playlistToUse.length : Int) ≤ n then 0 else n)
        | none =>
          some ((pick % playlistToUse.length : Nat) : Int)
      else
        let n := playlistIndex + 1
        if (playlistToUse.length : Int) ≤ n then
          if s.repeatMode = .all then some 0 else none
        else some n
    match nextIndexOpt with
    | none => stopPlayback s
    | some nextIndex =>
      let nextSong := listGetI playlistToUse nextIndex
      let s1 := match s.activePlaylist with
        | some p => { s with activePlaylist := some { p with currentIndex := some nextIndex } }
        | none => s
      let s2 := { s1 with queueIndex := nextIndex }
      playSong po nextSong s2
  else
    stopPlayback s

/-- The `ended` event handler (lines 176-181): clear the playing flag,
rewind the cached time, and delegate unconditionally to `playNext`. -/
def handleEnded (po : PlayOutcome) (pick : Nat) (s : PState) : PState :=
  playNext po pick { s with isPlaying := false, currentTime := 0 }

/-- `seekTo` (lines 875-885): guarded by the handle being present, the
input not being `NaN`, and the input being non-negative; then assigns
both the handle position and the cached `currentTime`. -/
def seekTo (t : JSNum) (s : PState) : PState :=
  match s.audio, t with
  | some a, .num x =>
    if 0 ≤ x then
      { s with audio := some { a with currentTime := x }, currentTime := x }
    else s
  | _, _ => s

/-! ## Processing graph (`AudioProcessor`) -/

/-- A Web Audio node as `dispose` treats it. -/
structure NodeObj where
  disconnected : Bool
deriving DecidableEq, Repr

/-- The `AudioContext` handle as `dispose` treats it. -/
structure CtxObj where
  closed : Bool
deriving DecidableEq, Repr

/-- The `AudioProcessor` instance fields touched by `dispose`: every
node reference is nullable, so this state type covers fully built,
partially constructed and already-disposed processors alike. -/
structure ProcState where
  audioContext : Option CtxObj
  sourceNode : Option NodeObj
  gainNode : Option NodeObj
  analyserNode : Option NodeObj
  eqLowShelf : Option NodeObj
  eqMidPeaking : Option NodeObj
  eqHighShelf : Option NodeObj
  compressorNode : Option NodeObj
  limiterNode : Option NodeObj
  isInitialized : Bool
deriving DecidableEq, Repr

/-- The final state of each host object a `dispose` call touched, for
stating what happened to objects whose references were nulled. -/
structure DisposeReport where
  sourceFinal : Option NodeObj
  gainFinal : Option NodeObj
  analyserFinal : Option NodeObj
  eqLowFinal : Option NodeObj
  eqMidFinal : Option NodeObj
  eqHighFinal : Option NodeObj
  compressorFinal : Option NodeObj
  limiterFinal : Option NodeObj
  ctxFinal : Option CtxObj
deriving DecidableEq, Repr

/-- `node.disconnect()` with no arguments (never throws on the platform;
the source additionally wraps each call in its own try/catch). -/
def nodeDisconnect (n : NodeObj) : NodeObj := { n with disconnected := true }

/-- `audioContext.close()`: throws `InvalidStateError` on an
already-closed context, else closes it. -/
def ctxCloseOp (c : CtxObj) : Except String CtxObj :=
  if c.closed then Except.error "InvalidStateError" else Except.ok { c with closed := true }

/-- The `try { close } catch { ignore }` wrapper around `ctxCloseOp`
(lines 372-379 of the class). -/
def ctxCloseCaught (c : CtxObj) : CtxObj :=
  match ctxCloseOp c with
  | .ok c2 => c2
  | .error _ => c

/-- The field state `dispose` leaves behind: every reference null,
`isInitialized` false. -/
def disposedProcState : ProcState :=
  { audioContext := none
    sourceNode := none
    gainNode := none
    analyserNode := none
    eqLowShelf := none
    eqMidPeaking := none
    eqHighShelf := none
    compressorNode := none
    limiterNode := none
    isInitialized := false }

/-- `AudioProcessor.dispose` (lines 308-383): disconnect each present
node inside its own try/catch and null its reference, reset the EQ
record, close the context inside try/catch and null it, clear
`isInitialized`.  Each catch swallows its exception, so the function is
total; the report returns each touched host object's final state. -/
def dispose (s : ProcState) : ProcState × DisposeReport :=
  ( disposedProcState,
    { sourceFinal := s.sourceNode.map nodeDisconnect
      gainFinal := s.gainNode.map nodeDisconnect
      analyserFinal := s.analyserNode.map nodeDisconnect
      eqLowFinal := s.eqLowShelf.map nodeDisconnect
      eqMidFinal := s.eqMidPeaking.map nodeDisconnect
      eqHighFinal := s.eqHighShelf.map nodeDisconnect
      compressorFinal := s.compressorNode.map nodeDisconnect
      limiterFinal := s.limiterNode.map nodeDisconnect
      ctxFinal := s.audioContext.map ctxCloseCaught } )

/-! ## Shared helper definitions for the claims -/

/-- Whether `proceedWithPlayback` rejects the song with `noAudioUrlMsg`
(no source resolves, or the resolved URL is blank). -/
def playFailsB (song : Song) : Bool :=
  match resolveAudioInfo song with
  | none => true
  | some info => info.selectedUrl == "" || jsTrim info.selectedUrl == ""

/-! ## C10 — processing-graph disposal -/

/-- C10: `dispose` is safe on every processor state — including a
partially constructed one (any subset of references present, covering
every state a failed `initializeProcessing` can leave behind) and the
state left by a previous `dispose` call.  Every call returns normally
(the function is total: each platform call is individually try/caught),
nulls every node reference, disconnects every node that was present,
closes the context when one was present, clears `isInitialized`, and an
immediately repeated call does the same with nothing left to touch. -/
theorem dispose_safe (s : ProcState) :
    (dispose s).1 = disposedProcState ∧
    (∀ n, s.sourceNode = some n → (dispose s).2.sourceFinal = some { n with disconnected := true }) ∧
    (∀ n, s.gainNode = some n → (dispose s).2.gainFinal = some { n with disconnected := true }) ∧
    (∀ n, s.analyserNode = some n → (dispose s).2.analyserFinal = some { n with disconnected := true }) ∧
    (∀ n, s.eqLowShelf = some n → (dispose s).2.eqLowFinal = some { n with disconnected := true }) ∧
    (∀ n, s.eqMidPeaking = some n → (dispose s).2.eqMidFinal = some { n with disconnected := true }) ∧
    (∀ n, s.eqHighShelf = some n → (dispose s).2.eqHighFinal = some { n with disconnected := true }) ∧
    (∀ n, s.compressorNode = some n → (dispose s).2.compressorFinal = some { n with disconnected := true }) ∧
    (∀ n, s.limiterNode = some n → (dispose s).2.limiterFinal = some { n with disconnected := true }) ∧
    (∀ c, s.audioContext = some c →
      ∃ c2, (dispose s).2.ctxFinal = some c2 ∧ c2.closed = true) ∧
    (dispose s).1.isInitialized = false ∧
    (dispose (dispose s).1).1 = disposedProcState ∧
    (dispose (dispose s).1).2 =
      { sourceFinal := none, gainFinal := none, analyserFinal := none, eqLowFinal := none,
        eqMidFinal := none, eqHighFinal := none, compressorFinal := none, limiterFinal := none,
        ctxFinal := none } := by
  refine ⟨rfl, ?_, ?_, ?_, ?_, ?_, ?_, ?_, ?_, ?_, rfl, rfl, rfl⟩
  · intro n h; simp [dispose, h, nodeDisconnect]
  · intro n h; simp [dispose, h, nodeDisconnect]
  · intro n h; simp [dispose, h, nodeDisconnect]
  · intro n h; simp [dispose, h, nodeDisconnect]
  · intro n h; simp [dispose, h, nodeDisconnect]
  · intro n h; simp [dispose, h, nodeDisconnect]
  · intro n h; simp [dispose, h, nodeDisconnect]
  · intro n h; simp [dispose, h, nodeDisconnect]
  · intro c h
    refine ⟨ctxCloseCaught c, ?_, ?_⟩
    · simp [dispose, h]
    · by_cases hc : c.closed <;> simp [ctxCloseCaught, ctxCloseOp, hc]

/-- A partially constructed processor: context and source created,
construction abandoned before the rest of the graph. -/
def procPartial : ProcState :=
  { disposedProcState with
      audioContext := some { closed := false }
      sourceNode := some { disconnected := false } }

/-- Witness for C10 at a concrete partially-constructed state. -/
theorem dispose_safe_witness :
    (dispose procPartial).1 = disposedProcState ∧
    (dispose procPartial).2.sourceFinal = some { disconnected := true } ∧
    (∃ c2, (dispose procPartial).2.ctxFinal = some c2 ∧ c2.closed = true) ∧
    (dispose (dispose procPartial).1).1 = disposedProcState := by
  obtain ⟨h1, h2, _, _, _, _, _, _, _, h10, _, h12, _⟩ := dispose_safe procPartial
  exact ⟨h1, h2 { disconnected := false } rfl, h10 { closed := false } rfl, h12⟩

/-! ## C9 — seekTo input validation -/

/-- A concrete state for exercising `seekTo`: a loaded track of
duration 100 with the transport at position 10. -/
def seekState : PState :=
  { currentSong := none, isPlaying := true, queue := [], queueIndex := 0,
    activePlaylist := none, repeatMode := .none, isShuffle := false, volume := 1,
    currentTime := 10, duration := 100, error := none, currentAudioInfo := none,
    audio := some { src := "track.mp3", currentTime := 10, paused := false, volume := 1 } }

/-- C9 counterexample: the claim says `seekTo(time)` no-ops for
`time > duration`, but the source never consults `duration`: at
duration 100, `seekTo 150` changes `currentTime` (and the handle
position) to 150. -/
theorem seekTo_out_of_range_cex :
    seekState.duration = 100 ∧ seekState.duration < 150 ∧
    seekState.currentTime = 10 ∧
    (seekTo (.num 150) seekState).currentTime = 150 ∧
    (seekTo (.num 150) seekState).audio =
      some { src := "track.mp3", currentTime := 150, paused := false, volume := 1 } := by
  decide

/-- C9 as amended: `seekTo` no-ops (state identical, nothing thrown —
the function is total) exactly on `NaN` or negative input, or when no
media handle exists; for any non-negative input, including inputs
greater than the current duration, it assigns both the handle position
and the cached `currentTime`. -/
theorem seekTo_spec (s : PState) :
    (seekTo .nan s = s) ∧
    (∀ x : Rat, x < 0 → seekTo (.num x) s = s) ∧
    (s.audio = none → ∀ t, seekTo t s = s) ∧
    (∀ x : Rat, 0 ≤ x → ∀ a, s.audio = some a →
      seekTo (.num x) s =
        { s with audio := some { a with currentTime := x }, currentTime := x }) := by
  refine ⟨?_, ?_, ?_, ?_⟩
  · cases h : s.audio <;> simp [seekTo, h]
  · intro x hx
    cases h : s.audio with
    | none => simp [seekTo, h]
    | some a => simp [seekTo, h, if_neg (not_le.mpr hx)]
  · intro h t
    cases t <;> simp [seekTo, h]
  · intro x hx a ha
    simp [seekTo, ha, hx]

/-- Witness for C9 at concrete inputs. -/
theorem seekTo_spec_witness :
    (seekTo .nan seekState = seekState) ∧
    (seekTo (.num (-5)) seekState = seekState) ∧
    (seekTo (.num 42) seekState).currentTime = 42 :=
  ⟨(seekTo_spec seekState).1,
   (seekTo_spec seekState).2.1 (-5) (by norm_num),
   by
    have h := (seekTo_spec seekState).2.2.2 42 (by norm_num)
      { src := "track.mp3", currentTime := 10, paused := false, volume := 1 } rfl
    rw [h]⟩

/-! ## C7 — shouldDelay recommendation -/

/-- An endpoint state saturated at the cap whose window ends at time 1000. -/
def rlCapState : RLState :=
  RLState.empty.set "search" { lastCall := 0, callCount := 60, resetTime := 1000 }

/-- C7 counterexample: the claim says the delay is positive at every
call until the window resets, but the window only resets on a call
strictly after `resetTime` (the source tests `now > info.resetTime`):
a call at exactly `now = resetTime` is still in the capped window, the
counter is not reset, and yet the returned delay is 0. -/
theorem shouldDelay_cap_boundary_cex :
    rlCapState "search" = some { lastCall := 0, callCount := 60, resetTime := 1000 } ∧
    ¬ (0 < (shouldDelay 1000 "search" rlCapState).1) ∧
    (shouldDelay 1000 "search" rlCapState).2 "search" =
      some { lastCall := 0, callCount := 60, resetTime := 1000 } := by
  decide

/-- The cap branch of `shouldDelay`: at or over the cap inside the
window, the remaining window time is returned and the record is left
untouched. -/
theorem shouldDelay_cap (st : RLState) (endpoint : String) (info : RateLimitInfo) (now : Nat)
    (h : st endpoint = some info) (hcap : MAX_CALLS_PER_MINUTE ≤ info.callCount)
    (hwin : now ≤ info.resetTime) :
    (shouldDelay now endpoint st).1 = (info.resetTime : Int) - (now : Int) ∧
    (shouldDelay now endpoint st).2 = st ∧
    (now < info.resetTime → 0 < (shouldDelay now endpoint st).1) := by
  have hnotgt : ¬ now > info.resetTime := not_lt.mpr hwin
  have heq : shouldDelay now endpoint st = ((info.resetTime : Int) - (now : Int), st) := by
    simp [shouldDelay, h, hnotgt, hcap]
  rw [heq]
  exact ⟨rfl, rfl, fun hlt => by simp only; omega⟩

/-- C7 as amended: within a not-yet-reset window (`now ≤ resetTime`) at
the cap, `shouldDelay` returns the remaining window time without
touching the endpoint's record (so every further call until the reset
timestamp gets the same answer), and that value is positive whenever
the call is strictly before the reset timestamp (at exactly the reset
timestamp it is 0); below the cap it returns the shortfall versus the
500 ms minimum spacing, 0 once at least 500 ms have elapsed since the
last recorded call; a first call to an endpoint and a call after the
window has passed return 0. -/
theorem shouldDelay_spec :
    (∀ (st : RLState) endpoint info now, st endpoint = some info →
      MAX_CALLS_PER_MINUTE ≤ info.callCount → now ≤ info.resetTime →
        (shouldDelay now endpoint st).1 = (info.resetTime : Int) - (now : Int) ∧
        (shouldDelay now endpoint st).2 = st ∧
        (now < info.resetTime → 0 < (shouldDelay now endpoint st).1)) ∧
    (∀ (st : RLState) endpoint info now, st endpoint = some info →
      info.callCount < MAX_CALLS_PER_MINUTE → now ≤ info.resetTime →
        (shouldDelay now endpoint st).1 =
          max 0 (DEFAULT_DELAY - ((now : Int) - (info.lastCall : Int))) ∧
        (info.lastCall + 500 ≤ now → (shouldDelay now endpoint st).1 = 0)) ∧
    (∀ (st : RLState) endpoint now, st endpoint = none →
      (shouldDelay now endpoint st).1 = 0) ∧
    (∀ (st : RLState) endpoint info now, st endpoint = some info →
      info.resetTime < now → (shouldDelay now endpoint st).1 = 0) := by
  refine ⟨fun st endpoint info now h hcap hwin => shouldDelay_cap st endpoint info now h hcap hwin,
    ?_, ?_, ?_⟩
  · intro st endpoint info now h hcap hwin
    have hnotgt : ¬ now > info.resetTime := not_lt.mpr hwin
    have hnotcap : ¬ info.callCount ≥ MAX_CALLS_PER_MINUTE := not_le.mpr hcap
    have heq : shouldDelay now endpoint st =
        (max 0 (DEFAULT_DELAY - ((now : Int) - (info.lastCall : Int))),
         st.set endpoint
           { lastCall := now, callCount := info.callCount + 1, resetTime := info.resetTime }) := by
      simp [shouldDelay, h, hnotgt, hnotcap]
    rw [heq]
    refine ⟨rfl, fun hspace => ?_⟩
    simp only [DEFAULT_DELAY]
    omega
  · intro st endpoint now h
    simp [shouldDelay, h]
  · intro st endpoint info now h hlt
    simp [shouldDelay, h, hlt]

/-- Witness for C7 at concrete endpoint states. -/
theorem shouldDelay_spec_witness :
    (shouldDelay 400 "search" rlCapState).1 = 600 ∧
    (0 < (shouldDelay 400 "search" rlCapState).1) ∧
    (shouldDelay 900 "meta"
      (RLState.empty.set "meta" { lastCall := 100, callCount := 3, resetTime := 50000 })).1
      = 0 := by
  have h1 := shouldDelay_spec.1 rlCapState "search"
    { lastCall := 0, callCount := 60, resetTime := 1000 } 400 (by decide) (by decide) (by decide)
  have h2 := (shouldDelay_spec.2.1
    (RLState.empty.set "meta" { lastCall := 100, callCount := 3, resetTime := 50000 }) "meta"
    { lastCall := 100, callCount := 3, resetTime := 50000 } 900 (by decide) (by decide)
    (by decide)).2 (by decide)
  refine ⟨?_, h1.2.2 (by decide), h2⟩
  rw [h1.1]
  decide

/-! ## C8 — recordFailure saturation -/

/-- C8 counterexample: the claim quantifies over every endpoint state,
but `recordFailure` only acts when the endpoint already has an entry:
for an endpoint never passed to `shouldDelay`, a recorded 403 changes
nothing and the next `shouldDelay` call returns 0, not a positive delay. -/
theorem recordFailure_unseen_cex :
    RLState.empty "enrich" = none ∧
    (recordFailure 500 "enrich" 403 RLState.empty) "enrich" = none ∧
    (shouldDelay 600 "enrich" (recordFailure 500 "enrich" 403 RLState.empty)).1 = 0 := by
  decide

/-- C8 as amended: for an endpoint that already has a recorded entry,
`recordFailure` with a rate-limit status (403) rewrites the entry to
reset-time `now + 2 × RESET_INTERVAL` and call count saturated at the
cap, so every subsequent `shouldDelay` call strictly before that
extended reset time returns a positive delay regardless of how small
the previous call counter was. -/
theorem recordFailure_spec (st : RLState) (endpoint : String) (info : RateLimitInfo) (now : Nat)
    (h : st endpoint = some info) :
    ((recordFailure now endpoint 403 st) endpoint =
      some { lastCall := info.lastCall
             callCount := MAX_CALLS_PER_MINUTE
             resetTime := now + RESET_INTERVAL * 2 }) ∧
    (∀ now2, now2 < now + RESET_INTERVAL * 2 →
      0 < (shouldDelay now2 endpoint (recordFailure now endpoint 403 st)).1) := by
  have hset : (recordFailure now endpoint 403 st) endpoint =
      some { lastCall := info.lastCall
             callCount := MAX_CALLS_PER_MINUTE
             resetTime := now + RESET_INTERVAL * 2 } := by
    simp [recordFailure, h, RLState.set]
  refine ⟨hset, fun now2 h2 => ?_⟩
  have hspec := shouldDelay_cap (recordFailure now endpoint 403 st) endpoint
    { lastCall := info.lastCall
      callCount := MAX_CALLS_PER_MINUTE
      resetTime := now + RESET_INTERVAL * 2 } now2 hset (le_refl _) (le_of_lt h2)
  exact hspec.2.2 h2

/-- Witness for C8: a lightly used endpoint (call count 1) is saturated
by a recorded 403 and the next call is delayed. -/
theorem recordFailure_spec_witness :
    (0 : Int) <
      (shouldDelay 5000 "search"
        (recordFailure 1000 "search" 403
          (RLState.empty.set "search" { lastCall := 0, callCount := 1, resetTime := 700 }))).1 :=
  (recordFailure_spec
    (RLState.empty.set "search" { lastCall := 0, callCount := 1, resetTime := 700 })
    "search" { lastCall := 0, callCount := 1, resetTime := 700 } 1000 (by decide)).2
    5000 (by decide)

/-! ## C5 — source-selector ordering -/

/-- The comparator never places an element strictly before itself. -/
theorem candLe_refl (a : AudioQuality) : candLe a a := by
  rw [candLe_iff]
  exact Or.inr ⟨rfl, le_refl _⟩

/-- Characterization of the selector on a non-empty parsed list: the
decision is built from a parsed candidate that the comparator places no
later than every parsed candidate, and the retained list is the sorted
array. -/
theorem selectOptimal_head (l : List RawCandidate)
    (h : (l.filter rawValid).map parseCandidate ≠ []) :
    ∃ sel,
      sel ∈ (l.filter rawValid).map parseCandidate ∧
      selectOptimalAudioSource l =
        { selectedUrl := sel.url
          detectedQuality := sel.quality
          detectedBitrate := sel.bitrate
          detectedFormat := some sel.format
          availableQualities :=
            List.insertionSort candLe ((l.filter rawValid).map parseCandidate) } ∧
      ∀ c ∈ (l.filter rawValid).map parseCandidate, candLe sel c := by
  have hl : ¬ l.length = 0 := by
    intro h0
    rw [List.length_eq_zero] at h0
    subst h0
    simp at h
  have hperm :
      (List.insertionSort candLe ((l.filter rawValid).map parseCandidate)).Perm
        ((l.filter rawValid).map parseCandidate) :=
    List.perm_insertionSort _ _
  have hsorted :
      List.Sorted candLe (List.insertionSort candLe ((l.filter rawValid).map parseCandidate)) :=
    List.sorted_insertionSort _ _
  obtain ⟨sel, rest, hcons⟩ : ∃ sel rest,
      List.insertionSort candLe ((l.filter rawValid).map parseCandidate) = sel :: rest := by
    cases hs : List.insertionSort candLe ((l.filter rawValid).map parseCandidate) with
    | nil =>
      rw [hs] at hperm
      exact absurd hperm.symm.eq_nil h
    | cons a t => exact ⟨a, t, rfl⟩
  refine ⟨sel, hperm.subset (hcons ▸ List.mem_cons_self sel rest), ?_, ?_⟩
  · unfold selectOptimalAudioSource
    simp only [if_neg hl, hcons]
  · intro c hc
    have hc2 : c ∈ sel :: rest := hcons ▸ hperm.symm.subset hc
    rcases List.mem_cons.mp hc2 with hceq | hcr
    · subst hceq
      exact candLe_refl c
    · exact List.rel_of_sorted_cons (hcons ▸ hsorted) c hcr

/-- Every parsed candidate's URL comes from a filter-surviving link and
is therefore non-empty with non-blank trim. -/
theorem parsed_url_valid {urls : List RawCandidate} {sel : AudioQuality}
    (hmem : sel ∈ (urls.filter rawValid).map parseCandidate) :
    sel.url ≠ "" ∧ jsTrim sel.url ≠ "" := by
  obtain ⟨c, hcf, hce⟩ := List.mem_map.mp hmem
  have hcv : rawValid c = true := (List.mem_filter.mp hcf).2
  unfold rawValid at hcv
  cases hlink : c.link with
  | none => rw [hlink] at hcv; exact absurd hcv (by simp)
  | some lnk =>
    rw [hlink] at hcv
    have hlv := (Bool.and_eq_true _ _).mp hcv
    have hurl : sel.url = lnk := by
      rw [← hce]
      simp [parseCandidate, hlink]
    rw [hurl]
    constructor
    · exact of_decide_eq_true hlv.1
    · exact of_decide_eq_true hlv.2

/-- The spec's worked example: 96/160/320 kbps candidates with
distinct URLs. -/
def exampleCandidates : List RawCandidate :=
  [{ link := some "u96", quality := some "96kbps" },
   { link := some "u160", quality := some "160kbps" },
   { link := some "u320", quality := some "320kbps" }]

/-- C5: for every candidate list whose parsed (filtered) form is
non-empty, the selector's decision is one of the parsed candidates that
every parsed candidate compares no better than, under the comparator
order (tier priority descending, then bitrate descending, then
bitrate-carrying before bitrate-less — `candLe_iff` states this order
is exactly the lexicographic one on `candKey`); the full parsed list is
retained, as a permutation, in `availableQualities`; and on the spec's
96/160/320 example the 320 kbps URL is selected with tier `high`. -/
theorem selectOptimal_spec (l : List RawCandidate)
    (h : (l.filter rawValid).map parseCandidate ≠ []) :
    (∃ sel,
      sel ∈ (l.filter rawValid).map parseCandidate ∧
      (selectOptimalAudioSource l).selectedUrl = sel.url ∧
      (selectOptimalAudioSource l).detectedQuality = sel.quality ∧
      (selectOptimalAudioSource l).detectedBitrate = sel.bitrate ∧
      (selectOptimalAudioSource l).detectedFormat = some sel.format ∧
      ∀ c ∈ (l.filter rawValid).map parseCandidate, candLe sel c) ∧
    ((selectOptimalAudioSource l).availableQualities).Perm
      ((l.filter rawValid).map parseCandidate) ∧
    (selectOptimalAudioSource exampleCandidates).selectedUrl = "u320" ∧
    (selectOptimalAudioSource exampleCandidates).detectedQuality = Quality.high := by
  obtain ⟨sel, hmem, heq, hmax⟩ := selectOptimal_head l h
  refine ⟨⟨sel, hmem, ?_, ?_, ?_, ?_, hmax⟩, ?_, by decide, by decide⟩
  · rw [heq]
  · rw [heq]
  · rw [heq]
  · rw [heq]
  · rw [heq]
    exact List.perm_insertionSort _ _

/-- Witness for C5 at the spec's concrete example list. -/
theorem selectOptimal_spec_witness :
    ((exampleCandidates.filter rawValid).map parseCandidate ≠ []) ∧
    (selectOptimalAudioSource exampleCandidates).selectedUrl = "u320" ∧
    (selectOptimalAudioSource exampleCandidates).detectedQuality = Quality.high :=
  ⟨by decide, (selectOptimal_spec exampleCandidates (by decide)).2.2.1,
   (selectOptimal_spec exampleCandidates (by decide)).2.2.2⟩

/-! ## C2 — rejection of tracks with no usable source -/

/-- A track with zero audio candidates but a non-blank legacy `url`. -/
def fallbackSong : Song :=
  { id := "a", name := "A", url := "http://x.mp3", downloadUrl := some [], language := none }

/-- A playback state with nothing playing yet. -/
def emptyPState : PState :=
  { currentSong := none, isPlaying := false, queue := [], queueIndex := 0,
    activePlaylist := none, repeatMode := .none, isShuffle := false, volume := 1,
    currentTime := 0, duration := 0, error := none, currentAudioInfo := none,
    audio := some { src := "", currentTime := 0, paused := true, volume := 1 } }

/-- C2 counterexample: the claim says a track with zero audio
candidates fails with `NoPlayableSource` and leaves `currentTrack`
untouched, but the source falls back to the track's legacy `url` field:
playing `fallbackSong` (candidate list empty, `url` non-blank) succeeds,
mutates `currentSong` and `currentAudioInfo`, and sets no error. -/
theorem play_zero_candidates_cex :
    fallbackSong.downloadUrl = some [] ∧
    emptyPState.currentSong = none ∧
    (proceedWithPlayback .ok fallbackSong emptyPState).currentSong = some fallbackSong ∧
    (proceedWithPlayback .ok fallbackSong emptyPState).currentAudioInfo =
      some (fallbackInfo "http://x.mp3") ∧
    (proceedWithPlayback .ok fallbackSong emptyPState).error = none := by
  decide

/-- C2 as amended: `proceedWithPlayback` fails with `noAudioUrlMsg` —
changing nothing but the error field, so `currentSong`,
`currentAudioInfo`, `queue` and `queueIndex` keep their prior values —
exactly when the resolution ladder yields no usable URL; that happens
when the candidate list is absent or empty AND the legacy `url` is
blank, or when a non-empty candidate list has every entry's link blank
(in which case the legacy `url` is not consulted).  With zero
candidates but a non-blank `url`, playback falls back to the track's
own `url` instead of failing.  On an empty candidate list the selector
returns the empty/unknown decision with no URL. -/
theorem play_no_source_spec :
    (∀ po song s, playFailsB song = true →
      proceedWithPlayback po song s = { s with error := some noAudioUrlMsg }) ∧
    (∀ song urls, song.downloadUrl = some urls → urls ≠ [] →
      urls.filter rawValid = [] → playFailsB song = true) ∧
    (∀ song : Song, (song.downloadUrl = none ∨ song.downloadUrl = some []) →
      (song.url = "" ∨ jsTrim song.url = "") → playFailsB song = true) ∧
    (selectOptimalAudioSource [] =
      { selectedUrl := "", detectedQuality := .unknown, detectedBitrate := none,
        detectedFormat := none, availableQualities := [] }) ∧
    (∀ song : Song, (song.downloadUrl = none ∨ song.downloadUrl = some []) →
      song.url ≠ "" → jsTrim song.url ≠ "" →
      playFailsB song = false ∧ resolveAudioInfo song = some (fallbackInfo song.url)) := by
  refine ⟨?_, ?_, ?_, rfl, ?_⟩
  · intro po song s hfail
    unfold playFailsB at hfail
    cases hres : resolveAudioInfo song with
    | none =>
      unfold proceedWithPlayback
      rw [hres]
    | some info =>
      rw [hres] at hfail
      simp only [Bool.or_eq_true, beq_iff_eq] at hfail
      unfold proceedWithPlayback
      rw [hres]
      dsimp only
      rw [if_pos hfail]
  · intro song urls hdl hne hfil
    have hlen : ¬ urls.length = 0 := fun h0 => hne (List.length_eq_zero.mp h0)
    have hsel : selectOptimalAudioSource urls =
        { selectedUrl := "", detectedQuality := .unknown, detectedBitrate := none,
          detectedFormat := none, availableQualities := [] } := by
      unfold selectOptimalAudioSource
      rw [if_neg hlen, hfil]
      rfl
    have hres : resolveAudioInfo song = some (selectOptimalAudioSource urls) := by
      unfold resolveAudioInfo
      rw [hdl]
      dsimp only
      rw [if_pos (show 0 < urls.length by omega)]
    unfold playFailsB
    rw [hres, hsel]
    rfl
  · intro song hdl hblank
    have hcond : ¬ (song.url ≠ "" ∧ jsTrim song.url ≠ "") := by
      rcases hblank with h1 | h1 <;> simp [h1]
    have hres : resolveAudioInfo song = none := by
      unfold resolveAudioInfo
      rcases hdl with h2 | h2
      · rw [h2]
        dsimp only
        rw [if_neg hcond]
      · rw [h2]
        dsimp only
        simp only [List.length_nil]
        rw [if_neg (Nat.lt_irrefl 0), if_neg hcond]
    unfold playFailsB
    rw [hres]
  · intro song hdl hu ht
    have hres : resolveAudioInfo song = some (fallbackInfo song.url) := by
      unfold resolveAudioInfo
      rcases hdl with h2 | h2
      · rw [h2]
        dsimp only
        rw [if_pos ⟨hu, ht⟩]
      · rw [h2]
        dsimp only
        simp only [List.length_nil]
        rw [if_neg (Nat.lt_irrefl 0), if_pos ⟨hu, ht⟩]
    refine ⟨?_, hres⟩
    unfold playFailsB
    rw [hres]
    simp [fallbackInfo, hu, ht]

/-- A track with no candidates and a blank legacy url. -/
def noUrlSong : Song :=
  { id := "n", name := "N", url := "", downloadUrl := none, language := none }

/-- Witness for C2: a truly sourceless track is rejected with only the
error field changed. -/
theorem play_no_source_spec_witness :
    playFailsB noUrlSong = true ∧
    proceedWithPlayback .ok noUrlSong emptyPState =
      { emptyPState with error := some noAudioUrlMsg } ∧
    (proceedWithPlayback .ok noUrlSong emptyPState).currentSong = none :=
  ⟨by decide,
   play_no_source_spec.1 .ok noUrlSong emptyPState (by decide),
   by rw [play_no_source_spec.1 .ok noUrlSong emptyPState (by decide)]; rfl⟩

/-! ## C6 — retry policy of makeRateLimitedCall -/

section RetryLemmas

variable {α : Type} (endpoint : String) (maxRetries retryDelay : Nat)
  (results : Nat → AttemptResult α)

/-- A chain of `n` rate-limit failures followed by a non-rate-limit
failure: the loop rethrows that failure at once, after `n + 1`
invocations with linearly increasing backoffs after each 403. -/
theorem runAttempts_non403 (n : Nat) :
    ∀ (attempt fuel now : Nat) (st : RLState) (status : Option Nat),
      fuel + attempt = maxRetries + 1 →
      attempt + n ≤ maxRetries →
      (∀ j, j < n → results (attempt + j) = .fail (some 403)) →
      results (attempt + n) = .fail status →
      status ≠ some 403 →
      (runAttempts endpoint maxRetries retryDelay results fuel attempt now st).outcome
          = .error (.underlying (attempt + n) status) ∧
      (runAttempts endpoint maxRetries retryDelay results fuel attempt now st).invocations
          = n + 1 ∧
      (runAttempts endpoint maxRetries retryDelay results fuel attempt now st).backoffs
          = (List.range' (attempt + 1) n).map (fun k => retryDelay * k) := by
  induction n with
  | zero =>
    intro attempt fuel now st status hfuel hle hchain hres hstat
    obtain ⟨fuel', rfl⟩ : ∃ f, fuel = f + 1 := ⟨fuel - 1, by omega⟩
    rw [Nat.add_zero] at hres
    simp only [runAttempts]
    rw [hres]
    dsimp only
    rw [if_neg (fun hand => hstat hand.1)]
    exact ⟨rfl, rfl, rfl⟩
  | succ n ih =>
    intro attempt fuel now st status hfuel hle hchain hres hstat
    obtain ⟨fuel', rfl⟩ : ∃ f, fuel = f + 1 := ⟨fuel - 1, by omega⟩
    have h0 : results attempt = .fail (some 403) := by
      have h1 := hchain 0 (Nat.succ_pos n)
      rwa [Nat.add_zero] at h1
    have key := ih (attempt + 1) fuel'
    have hc2 : ∀ j, j < n → results (attempt + 1 + j) = .fail (some 403) := by
      intro j hj
      have h2 := hchain (j + 1) (by omega)
      rwa [show attempt + (j + 1) = attempt + 1 + j by omega] at h2
    have hr2 : results (attempt + 1 + n) = .fail status := by
      rwa [show attempt + (n + 1) = attempt + 1 + n by omega] at hres
    simp only [runAttempts]
    rw [h0]
    dsimp only
    rw [if_pos ⟨rfl, by omega⟩]
    have hidx : attempt + (n + 1) = attempt + 1 + n := by omega
    rw [hidx, List.range'_succ, List.map_cons]
    refine ⟨?_, ?_, ?_⟩
    · exact (key _ _ status (by omega) (by omega) hc2 hr2 hstat).1
    · rw [(key _ _ status (by omega) (by omega) hc2 hr2 hstat).2.1]
    · rw [(key _ _ status (by omega) (by omega) hc2 hr2 hstat).2.2]

/-- A chain of `n` rate-limit failures followed by a success: the loop
returns the success, after `n + 1` invocations with linearly increasing
backoffs after each 403. -/
theorem runAttempts_success (n : Nat) :
    ∀ (attempt fuel now : Nat) (st : RLState) (v : α),
      fuel + attempt = maxRetries + 1 →
      attempt + n ≤ maxRetries →
      (∀ j, j < n → results (attempt + j) = .fail (some 403)) →
      results (attempt + n) = .ok v →
      (runAttempts endpoint maxRetries retryDelay results fuel attempt now st).outcome = .ok v ∧
      (runAttempts endpoint maxRetries retryDelay results fuel attempt now st).invocations
          = n + 1 ∧
      (runAttempts endpoint maxRetries retryDelay results fuel attempt now st).backoffs
          = (List.range' (attempt + 1) n).map (fun k => retryDelay * k) := by
  induction n with
  | zero =>
    intro attempt fuel now st v hfuel hle hchain hres
    obtain ⟨fuel', rfl⟩ : ∃ f, fuel = f + 1 := ⟨fuel - 1, by omega⟩
    rw [Nat.add_zero] at hres
    simp only [runAttempts]
    rw [hres]
    exact ⟨rfl, rfl, rfl⟩
  | succ n ih =>
    intro attempt fuel now st v hfuel hle hchain hres
    obtain ⟨fuel', rfl⟩ : ∃ f, fuel = f + 1 := ⟨fuel - 1, by omega⟩
    have h0 : results attempt = .fail (some 403) := by
      have h1 := hchain 0 (Nat.succ_pos n)
      rwa [Nat.add_zero] at h1
    have hc2 : ∀ j, j < n → results (attempt + 1 + j) = .fail (some 403) := by
      intro j hj
      have h2 := hchain (j + 1) (by omega)
      rwa [show attempt + (j + 1) = attempt + 1 + j by omega] at h2
    have hr2 : results (attempt + 1 + n) = .ok v := by
      rwa [show attempt + (n + 1) = attempt + 1 + n by omega] at hres
    simp only [runAttempts]
    rw [h0]
    dsimp only
    rw [if_pos ⟨rfl, by omega⟩]
    rw [List.range'_succ, List.map_cons]
    refine ⟨?_, ?_, ?_⟩
    · exact (ih (attempt + 1) fuel' _ _ v (by omega) (by omega) hc2 hr2).1
    · rw [(ih (attempt + 1) fuel' _ _ v (by omega) (by omega) hc2 hr2).2.1]
    · rw [(ih (attempt + 1) fuel' _ _ v (by omega) (by omega) hc2 hr2).2.2]

/-- When every attempt up to the cap fails with 403, the loop rethrows
the final attempt's underlying error (it never reaches the function's
distinct retries-exhausted throw). -/
theorem runAttempts_all403 (fuel : Nat) :
    ∀ (attempt now : Nat) (st : RLState),
      fuel + attempt = maxRetries + 1 →
      attempt ≤ maxRetries →
      (∀ j, j ≤ maxRetries → results j = .fail (some 403)) →
      (runAttempts endpoint maxRetries retryDelay results fuel attempt now st).outcome
          = .error (.underlying maxRetries (some 403)) ∧
      (runAttempts endpoint maxRetries retryDelay results fuel attempt now st).invocations
          = fuel ∧
      (runAttempts endpoint maxRetries retryDelay results fuel attempt now st).backoffs
          = (List.range' (attempt + 1) (fuel - 1)).map (fun k => retryDelay * k) := by
  induction fuel with
  | zero =>
    intro attempt now st hfuel hle hall
    omega
  | succ fuel' ih =>
    intro attempt now st hfuel hle hall
    have h0 : results attempt = .fail (some 403) := hall attempt hle
    simp only [runAttempts]
    rw [h0]
    dsimp only
    by_cases hlt : attempt < maxRetries
    · rw [if_pos ⟨rfl, hlt⟩]
      have hf1 : 1 ≤ fuel' := by omega
      have key := fun (now2 : Nat) (st2 : RLState) =>
        ih (attempt + 1) now2 st2 (by omega) (by omega) hall
      refine ⟨(key _ _).1, ?_, ?_⟩
      · rw [(key _ _).2.1]
      · rw [(key _ _).2.2]
        rw [show fuel' + 1 - 1 = (fuel' - 1) + 1 by omega, List.range'_succ, List.map_cons]
    · rw [if_neg (fun hand => hlt hand.2)]
      have ha : attempt = maxRetries := by omega
      have hf0 : fuel' = 0 := by omega
      subst ha
      subst hf0
      exact ⟨rfl, rfl, rfl⟩

/-- The final retries-exhausted throw (line 151) is unreachable: for
every behavior of the wrapped call, the loop either returns a success
or rethrows an underlying error. -/
theorem runAttempts_never_exhausted (fuel : Nat) :
    ∀ (attempt now : Nat) (st : RLState),
      1 ≤ fuel →
      fuel + attempt = maxRetries + 1 →
      ∀ e m,
        (runAttempts endpoint maxRetries retryDelay results fuel attempt now st).outcome
          ≠ .error (.retriesExhausted e m) := by
  induction fuel with
  | zero =>
    intro attempt now st hf
    omega
  | succ fuel' ih =>
    intro attempt now st hf hfuel e m
    simp only [runAttempts]
    cases hr : results attempt with
    | ok v => dsimp only; simp
    | fail status =>
      dsimp only
      by_cases hguard : status = some 403 ∧ attempt < maxRetries
      · rw [if_pos hguard]
        exact ih (attempt + 1) _ _ (by omega) (by omega) e m
      · rw [if_neg hguard]
        simp

end RetryLemmas

/-- C6 as amended: `makeRateLimitedCall` retries only rate-limit (403)
failures, up to `maxRetries` times, sleeping `retryDelay × attemptNumber`
before re-invoking; a success is returned; any non-rate-limit failure
is rethrown immediately with no further invocation; and when every
permitted attempt fails with 403, the call rethrows the last attempt's
underlying 403 error — the distinct retries-exhausted error naming the
endpoint is dead code and is never produced. -/
theorem makeRateLimitedCall_spec :
    (∀ {α : Type} (endpoint : String) (maxRetries retryDelay : Nat)
        (results : Nat → AttemptResult α) (now : Nat) (st : RLState) (n : Nat)
        (status : Option Nat),
      n ≤ maxRetries →
      (∀ j, j < n → results j = .fail (some 403)) →
      results n = .fail status → status ≠ some 403 →
      (makeRateLimitedCall endpoint maxRetries retryDelay results now st).outcome
          = .error (.underlying n status) ∧
      (makeRateLimitedCall endpoint maxRetries retryDelay results now st).invocations = n + 1 ∧
      (makeRateLimitedCall endpoint maxRetries retryDelay results now st).backoffs
          = (List.range' 1 n).map (fun k => retryDelay * k)) ∧
    (∀ {α : Type} (endpoint : String) (maxRetries retryDelay : Nat)
        (results : Nat → AttemptResult α) (now : Nat) (st : RLState) (n : Nat) (v : α),
      n ≤ maxRetries →
      (∀ j, j < n → results j = .fail (some 403)) →
      results n = .ok v →
      (makeRateLimitedCall endpoint maxRetries retryDelay results now st).outcome = .ok v ∧
      (makeRateLimitedCall endpoint maxRetries retryDelay results now st).invocations = n + 1 ∧
      (makeRateLimitedCall endpoint maxRetries retryDelay results now st).backoffs
          = (List.range' 1 n).map (fun k => retryDelay * k)) ∧
    (∀ {α : Type} (endpoint : String) (maxRetries retryDelay : Nat)
        (results : Nat → AttemptResult α) (now : Nat) (st : RLState),
      (∀ j, j ≤ maxRetries → results j = .fail (some 403)) →
      (makeRateLimitedCall endpoint maxRetries retryDelay results now st).outcome
          = .error (.underlying maxRetries (some 403)) ∧
      (makeRateLimitedCall endpoint maxRetries retryDelay results now st).invocations
          = maxRetries + 1 ∧
      (makeRateLimitedCall endpoint maxRetries retryDelay results now st).backoffs
          = (List.range' 1 maxRetries).map (fun k => retryDelay * k)) ∧
    (∀ {α : Type} (endpoint : String) (maxRetries retryDelay : Nat)
        (results : Nat → AttemptResult α) (now : Nat) (st : RLState) (e : String) (m : Nat),
      (makeRateLimitedCall endpoint maxRetries retryDelay results now st).outcome
          ≠ .error (.retriesExhausted e m)) := by
  refine ⟨?_, ?_, ?_, ?_⟩
  · intro α endpoint maxRetries retryDelay results now st n status hle hchain hres hstat
    have key := runAttempts_non403 endpoint maxRetries retryDelay results n 0 (maxRetries + 1)
      now st status (by omega) (by omega)
      (fun j hj => by simpa using hchain j hj) (by simpa using hres) hstat
    simpa [makeRateLimitedCall] using key
  · intro α endpoint maxRetries retryDelay results now st n v hle hchain hres
    have key := runAttempts_success endpoint maxRetries retryDelay results n 0 (maxRetries + 1)
      now st v (by omega) (by omega)
      (fun j hj => by simpa using hchain j hj) (by simpa using hres)
    simpa [makeRateLimitedCall] using key
  · intro α endpoint maxRetries retryDelay results now st hall
    have key := runAttempts_all403 endpoint maxRetries retryDelay results (maxRetries + 1)
      0 now st (by omega) (by omega) hall
    simpa [makeRateLimitedCall] using key
  · intro α endpoint maxRetries retryDelay results now st e m
    have key := runAttempts_never_exhausted endpoint maxRetries retryDelay results
      (maxRetries + 1) 0 now st (by omega) (by omega) e m
    simpa [makeRateLimitedCall] using key

/-- A wrapped call that fails with 403 at every attempt. -/
def always403 : Nat → AttemptResult Nat := fun _ => .fail (some 403)

/-- C6 counterexample: with `maxRetries = 2`, `retryDelay = 1000` and a
call that always fails 403, exhausting the retries rethrows the last
underlying 403 error (after backoffs 1000 then 2000), not the distinct
retries-exhausted error that names the endpoint. -/
theorem retries_exhausted_cex :
    (makeRateLimitedCall "enrich" 2 1000 always403 0 RLState.empty).outcome
        = .error (.underlying 2 (some 403)) ∧
    (makeRateLimitedCall "enrich" 2 1000 always403 0 RLState.empty).outcome
        ≠ .error (.retriesExhausted "enrich" 2) ∧
    (makeRateLimitedCall "enrich" 2 1000 always403 0 RLState.empty).invocations = 3 ∧
    (makeRateLimitedCall "enrich" 2 1000 always403 0 RLState.empty).backoffs = [1000, 2000] := by
  refine ⟨rfl, ?_, rfl, rfl⟩
  intro h
  rw [show (makeRateLimitedCall "enrich" 2 1000 always403 0 RLState.empty).outcome
      = .error (.underlying 2 (some 403)) from rfl] at h
  simp at h

/-- A wrapped call that fails 403 once, then succeeds. -/
def oneRetryThenOk : Nat → AttemptResult Nat := fun k => if k = 0 then .fail (some 403) else .ok 7

/-- Witness for C6: one 403 then success returns the success after one
backoff of `retryDelay × 1`; an immediate non-403 failure is rethrown
with no retry. -/
theorem makeRateLimitedCall_spec_witness :
    (makeRateLimitedCall "w" 2 100 oneRetryThenOk 0 RLState.empty).outcome = .ok 7 ∧
    (makeRateLimitedCall "w" 2 100 oneRetryThenOk 0 RLState.empty).backoffs = [100] ∧
    (makeRateLimitedCall "w" 2 100 (fun _ => .fail (some 500) : Nat → AttemptResult Nat)
        0 RLState.empty).outcome = .error (.underlying 0 (some 500)) ∧
    (makeRateLimitedCall "w" 2 100 (fun _ => .fail (some 500) : Nat → AttemptResult Nat)
        0 RLState.empty).invocations = 1 := by
  have hchain1 : ∀ j, j < 1 → oneRetryThenOk j = .fail (some 403) := by
    intro j hj
    have hj0 : j = 0 := by omega
    subst hj0
    rfl
  have h1 := makeRateLimitedCall_spec.2.1 "w" 2 100 oneRetryThenOk 0 RLState.empty 1 7
    (by omega) hchain1 (by rfl)
  have h2 := makeRateLimitedCall_spec.1 "w" 2 100
    (fun _ => .fail (some 500) : Nat → AttemptResult Nat) 0 RLState.empty 0 (some 500)
    (by omega) (fun j hj => by omega) rfl (by simp)
  refine ⟨h1.1, ?_, h2.1, h2.2.1⟩
  rw [h1.2.2]
  rfl

/-! ## C1 — repeat-one at the ended event -/

/-- First track of the repeat-one scenario. -/
def songA : Song :=
  { id := "a", name := "A", url := "urlA.mp3", downloadUrl := none, language := none }

/-- Second track of the repeat-one scenario. -/
def songB : Song :=
  { id := "b", name := "B", url := "urlB.mp3", downloadUrl := none, language := none }

/-- A two-track queue playing track 0 with `repeatMode = one`. -/
def repeatOneState : PState :=
  { currentSong := some songA, isPlaying := true, queue := [songA, songB], queueIndex := 0,
    activePlaylist := none, repeatMode := .one, isShuffle := false, volume := 1,
    currentTime := 0, duration := 180, error := none, currentAudioInfo := none,
    audio := some { src := "urlA.mp3", currentTime := 180, paused := false, volume := 1 } }

/-- A one-track queue playing its only track with `repeatMode = one`. -/
def repeatOneSingle : PState :=
  { repeatOneState with queue := [songA] }

/-- C1: the claim (and the spec) says the `ended` handler replays the
current track without moving the cursor when `repeatMode = one`, but no
code anywhere handles `repeatMode = one`: the handler calls `playNext`
unconditionally, which treats `one` exactly like `none`.  At the failing
input (two-track queue, cursor 0, repeat-one, track ends) the cursor
advances to 1 and track B plays; with a one-track queue under
repeat-one, playback simply stops instead of replaying. -/
theorem repeatOne_ended_bug :
    repeatOneState.repeatMode = RepeatMode.one ∧
    (handleEnded .ok 0 repeatOneState).queueIndex = 1 ∧
    (handleEnded .ok 0 repeatOneState).currentSong = some songB ∧
    repeatOneSingle.repeatMode = RepeatMode.one ∧
    (handleEnded .ok 0 repeatOneSingle).isPlaying = false ∧
    (handleEnded .ok 0 repeatOneSingle).queueIndex = 0 ∧
    (handleEnded .ok 0 repeatOneSingle).currentSong = some songA := by
  decide

/-! ## C4 — next() at the end of the queue -/

/-- `proceedWithPlayback` never touches the queue, cursor, playlist,
repeat or shuffle fields. -/
theorem proceed_fields (po : PlayOutcome) (song : Song) (s : PState) :
    (proceedWithPlayback po song s).queue = s.queue ∧
    (proceedWithPlayback po song s).queueIndex = s.queueIndex ∧
    (proceedWithPlayback po song s).activePlaylist = s.activePlaylist ∧
    (proceedWithPlayback po song s).repeatMode = s.repeatMode ∧
    (proceedWithPlayback po song s).isShuffle = s.isShuffle := by
  unfold proceedWithPlayback
  cases hres : resolveAudioInfo song with
  | none => exact ⟨rfl, rfl, rfl, rfl, rfl⟩
  | some info =>
    dsimp only
    by_cases hblank : info.selectedUrl = "" ∨ jsTrim info.selectedUrl = ""
    · rw [if_pos hblank]
      exact ⟨rfl, rfl, rfl, rfl, rfl⟩
    · rw [if_neg hblank]
      try dsimp only
      cases haud : s.audio with
      | none => exact ⟨rfl, rfl, rfl, rfl, rfl⟩
      | some a =>
        try dsimp only
        cases po <;> exact ⟨rfl, rfl, rfl, rfl, rfl⟩

/-- A playable song is committed: `currentSong` becomes the song, and a
successfully resolved play promise sets the playing flag when a media
handle exists. -/
theorem proceed_plays (po : PlayOutcome) (song : Song) (s : PState)
    (h : playFailsB song = false) :
    (proceedWithPlayback po song s).currentSong = some song ∧
    (∀ a, s.audio = some a → po = .ok → (proceedWithPlayback po song s).isPlaying = true) := by
  unfold playFailsB at h
  cases hres : resolveAudioInfo song with
  | none => rw [hres] at h; simp at h
  | some info =>
    rw [hres] at h
    simp only [Bool.or_eq_false_iff, beq_eq_false_iff_ne, ne_eq] at h
    unfold proceedWithPlayback
    rw [hres]
    try dsimp only
    rw [if_neg (not_or.mpr ⟨h.1, h.2⟩)]
    try dsimp only
    cases haud : s.audio with
    | none =>
      refine ⟨rfl, ?_⟩
      intro a ha hpo
      simp at ha
    | some a =>
      try dsimp only
      refine ⟨?_, ?_⟩
      · cases po <;> rfl
      · intro a2 ha2 hpo
        subst hpo
        rfl

/-- Every error value `proceedWithPlayback` can leave behind. -/
theorem proceed_error_cases (po : PlayOutcome) (song : Song) (s : PState) :
    (proceedWithPlayback po song s).error = some noAudioUrlMsg ∨
    (proceedWithPlayback po song s).error = none ∨
    (proceedWithPlayback po song s).error = some "Playback not allowed. Please click play to start." ∨
    (proceedWithPlayback po song s).error = some "Audio format not supported" ∨
    (proceedWithPlayback po song s).error = some "Network error: Unable to load audio" ∨
    (∃ m, (proceedWithPlayback po song s).error = some ("Failed to play song: " ++ m)) := by
  unfold proceedWithPlayback
  cases hres : resolveAudioInfo song with
  | none => exact Or.inl rfl
  | some info =>
    dsimp only
    by_cases hblank : info.selectedUrl = "" ∨ jsTrim info.selectedUrl = ""
    · rw [if_pos hblank]
      exact Or.inl rfl
    · rw [if_neg hblank]
      try dsimp only
      cases haud : s.audio with
      | none => exact Or.inr (Or.inl rfl)
      | some a =>
        try dsimp only
        cases po with
        | ok => exact Or.inr (Or.inl rfl)
        | aborted => exact Or.inr (Or.inl rfl)
        | notAllowed => exact Or.inr (Or.inr (Or.inl rfl))
        | notSupported => exact Or.inr (Or.inr (Or.inr (Or.inl rfl)))
        | networkErr => exact Or.inr (Or.inr (Or.inr (Or.inr (Or.inl rfl))))
        | failed m => exact Or.inr (Or.inr (Or.inr (Or.inr (Or.inr ⟨m, rfl⟩))))

/-- Sequential `playNext` at the last index with repeat-all wraps to
index 0 and plays the first track. -/
theorem playNext_seq_wrap (po : PlayOutcome) (pick : Nat) (s : PState)
    (hap : s.activePlaylist = none) (hsh : s.isShuffle = false) (hq : s.queue ≠ [])
    (hqi : s.queueIndex = (s.queue.length : Int) - 1) (hrm : s.repeatMode = .all) :
    playNext po pick s = playSong po (s.queue.get? 0) { s with queueIndex := 0 } := by
  have hlen : 0 < s.queue.length := List.length_pos.mpr hq
  unfold playNext
  rw [hap]
  try dsimp only
  rw [hsh, hrm, hqi]
  rw [if_pos (show 0 < s.queue.length ∧ (0 : Int) ≤ (s.queue.length : Int) - 1 by
    exact ⟨hlen, by omega⟩)]
  rw [if_neg (show ¬(false = true ∧ 1 < s.queue.length) by simp)]
  rw [if_pos (show (s.queue.length : Int) ≤ (s.queue.length : Int) - 1 + 1 by omega)]
  rw [if_pos rfl]
  try dsimp only
  rw [show listGetI s.queue (0 : Int) = s.queue.get? 0 by simp [listGetI]]
  try rw [hap]

/-- Sequential `playNext` at the last index without repeat-all stops
playback and changes nothing else. -/
theorem playNext_seq_stop (po : PlayOutcome) (pick : Nat) (s : PState)
    (hap : s.activePlaylist = none) (hsh : s.isShuffle = false) (hq : s.queue ≠ [])
    (hqi : s.queueIndex = (s.queue.length : Int) - 1) (hrm : s.repeatMode ≠ .all) :
    playNext po pick s = stopPlayback s := by
  have hlen : 0 < s.queue.length := List.length_pos.mpr hq
  unfold playNext
  rw [hap]
  try dsimp only
  rw [hsh, hqi]
  rw [if_pos (show 0 < s.queue.length ∧ (0 : Int) ≤ (s.queue.length : Int) - 1 by
    exact ⟨hlen, by omega⟩)]
  rw [if_neg (show ¬(false = true ∧ 1 < s.queue.length) by simp)]
  rw [if_pos (show (s.queue.length : Int) ≤ (s.queue.length : Int) - 1 + 1 by omega)]
  rw [if_neg hrm]

/-- `playNext` on a one-track queue (any shuffle flag): repeat-all
replays index 0, anything else stops. -/
theorem playNext_single (po : PlayOutcome) (pick : Nat) (s : PState) (t : Song)
    (hap : s.activePlaylist = none) (hq : s.queue = [t]) (hqi : s.queueIndex = 0) :
    playNext po pick s =
      if s.repeatMode = .all then playSong po (some t) { s with queueIndex := 0 }
      else stopPlayback s := by
  unfold playNext
  rw [hap]
  try dsimp only
  rw [hq, hqi]
  rw [if_pos (show 0 < [t].length ∧ (0 : Int) ≤ 0 by exact ⟨by simp, le_refl _⟩)]
  rw [if_neg (show ¬(s.isShuffle = true ∧ 1 < [t].length) by
    intro hand
    simp at hand)]
  rw [if_pos (show (([t].length : Nat) : Int) ≤ 0 + 1 by simp)]
  by_cases hrm : s.repeatMode = .all
  · rw [if_pos hrm, if_pos hrm]
    try dsimp only
    rw [show listGetI [t] (0 : Int) = some t by simp [listGetI]]
    try rw [hap]
  · rw [if_neg hrm, if_neg hrm]

/-- Every error state `playNext` can leave: either the prior error
(stop paths and absent next tracks change nothing) or one of
`proceedWithPlayback`'s play-attempt errors — there is no empty-queue
error anywhere in `playNext`. -/
theorem playNext_error_cases (po : PlayOutcome) (pick : Nat) (s : PState) :
    (playNext po pick s).error = s.error ∨
    (playNext po pick s).error = none ∨
    (playNext po pick s).error = some noAudioUrlMsg ∨
    (playNext po pick s).error = some "Playback not allowed. Please click play to start." ∨
    (playNext po pick s).error = some "Audio format not supported" ∨
    (playNext po pick s).error = some "Network error: Unable to load audio" ∨
    (∃ m, (playNext po pick s).error = some ("Failed to play song: " ++ m)) := by
  unfold playNext
  cases hap : s.activePlaylist with
  | none =>
    try dsimp only
    split
    · split
      · exact Or.inl rfl
      · rename_i ni hni
        unfold playSong
        split
        · exact Or.inl rfl
        · rename_i song hsong
          rcases proceed_error_cases po song { s with queueIndex := ni }
            with h | h | h | h | h | ⟨m, h⟩
          · exact Or.inr (Or.inr (Or.inl h))
          · exact Or.inr (Or.inl h)
          · exact Or.inr (Or.inr (Or.inr (Or.inl h)))
          · exact Or.inr (Or.inr (Or.inr (Or.inr (Or.inl h))))
          · exact Or.inr (Or.inr (Or.inr (Or.inr (Or.inr (Or.inl h)))))
          · exact Or.inr (Or.inr (Or.inr (Or.inr (Or.inr (Or.inr ⟨m, h⟩)))))
    · exact Or.inl rfl
  | some p =>
    try dsimp only
    split
    · split
      · exact Or.inl rfl
      · rename_i ni hni
        unfold playSong
        split
        · exact Or.inl rfl
        · rename_i song hsong
          rcases proceed_error_cases po song
              { s with activePlaylist := some { p with currentIndex := some ni },
                       queueIndex := ni }
            with h | h | h | h | h | ⟨m, h⟩
          · exact Or.inr (Or.inr (Or.inl h))
          · exact Or.inr (Or.inl h)
          · exact Or.inr (Or.inr (Or.inr (Or.inl h)))
          · exact Or.inr (Or.inr (Or.inr (Or.inr (Or.inl h))))
          · exact Or.inr (Or.inr (Or.inr (Or.inr (Or.inr (Or.inl h)))))
          · exact Or.inr (Or.inr (Or.inr (Or.inr (Or.inr (Or.inr ⟨m, h⟩)))))
    · exact Or.inl rfl

/-- C4: for a non-empty queue with the cursor at the last index and
shuffle off (no active playlist, so the queue/cursor pair is
authoritative), `playNext` wraps the cursor to 0 under repeat-all and
plays the first track; under any other repeat mode it stops playback
(playing flag cleared, handle paused and rewound to 0) without moving
the cursor, changing the current track or raising any error.  For a
queue of length 1 (either shuffle flag), repeat-all replays the single
track and other modes stop.  `playNext` never raises an empty-queue
failure: its error field is either unchanged or one of the
play-attempt errors of `proceedWithPlayback`. -/
theorem next_at_end_spec :
    (∀ po pick (s : PState), s.activePlaylist = none → s.isShuffle = false → s.queue ≠ [] →
      s.queueIndex = (s.queue.length : Int) - 1 → s.repeatMode = .all →
      (playNext po pick s).queueIndex = 0 ∧
      (∀ t, s.queue.get? 0 = some t → playFailsB t = false →
        (playNext po pick s).currentSong = some t ∧
        (∀ a, s.audio = some a → po = .ok → (playNext po pick s).isPlaying = true))) ∧
    (∀ po pick (s : PState), s.activePlaylist = none → s.isShuffle = false → s.queue ≠ [] →
      s.queueIndex = (s.queue.length : Int) - 1 → s.repeatMode ≠ .all →
      playNext po pick s = stopPlayback s ∧
      (playNext po pick s).isPlaying = false ∧
      (playNext po pick s).queueIndex = s.queueIndex ∧
      (playNext po pick s).currentSong = s.currentSong ∧
      (playNext po pick s).error = s.error ∧
      (∀ a, s.audio = some a →
        (playNext po pick s).audio = some { a with paused := true, currentTime := 0 })) ∧
    (∀ po pick (s : PState) t, s.activePlaylist = none → s.queue = [t] → s.queueIndex = 0 →
      (s.repeatMode = .all →
        (playNext po pick s).queueIndex = 0 ∧
        (playFailsB t = false →
          (playNext po pick s).currentSong = some t ∧
          (∀ a, s.audio = some a → po = .ok → (playNext po pick s).isPlaying = true))) ∧
      (s.repeatMode ≠ .all →
        playNext po pick s = stopPlayback s ∧ (playNext po pick s).isPlaying = false)) ∧
    (∀ po pick (s : PState),
      (playNext po pick s).error = s.error ∨
      (playNext po pick s).error = none ∨
      (playNext po pick s).error = some noAudioUrlMsg ∨
      (playNext po pick s).error = some "Playback not allowed. Please click play to start." ∨
      (playNext po pick s).error = some "Audio format not supported" ∨
      (playNext po pick s).error = some "Network error: Unable to load audio" ∨
      (∃ m, (playNext po pick s).error = some ("Failed to play song: " ++ m))) := by
  refine ⟨?_, ?_, ?_, fun po pick s => playNext_error_cases po pick s⟩
  · intro po pick s hap hsh hq hqi hrm
    rw [playNext_seq_wrap po pick s hap hsh hq hqi hrm]
    constructor
    · cases hg : s.queue.get? 0 with
      | none => rfl
      | some t => exact ((proceed_fields po t _).2.1).trans rfl
    · intro t hg hfail
      rw [hg]
      have hp := proceed_plays po t { s with queueIndex := 0 } hfail
      exact ⟨hp.1, fun a ha hpo => hp.2 a ha hpo⟩
  · intro po pick s hap hsh hq hqi hrm
    have he := playNext_seq_stop po pick s hap hsh hq hqi hrm
    rw [he]
    refine ⟨rfl, rfl, rfl, rfl, rfl, ?_⟩
    intro a ha
    simp [stopPlayback, ha]
  · intro po pick s t hap hq hqi
    have he := playNext_single po pick s t hap hq hqi
    constructor
    · intro hrm
      rw [he, if_pos hrm]
      constructor
      · exact ((proceed_fields po t _).2.1).trans rfl
      · intro hfail
        have hp := proceed_plays po t { s with queueIndex := 0 } hfail
        exact ⟨hp.1, fun a ha hpo => hp.2 a ha hpo⟩
    · intro hrm
      rw [he, if_neg hrm]
      exact ⟨rfl, rfl⟩

/-- The media handle for the C4 witness states. -/
def playerEl : AudioEl := { src := "urlB.mp3", currentTime := 100, paused := false, volume := 1 }

/-- Two-track queue at its last index under repeat-all. -/
def wrapState : PState :=
  { currentSong := some songB, isPlaying := true, queue := [songA, songB], queueIndex := 1,
    activePlaylist := none, repeatMode := .all, isShuffle := false, volume := 1,
    currentTime := 100, duration := 180, error := none, currentAudioInfo := none,
    audio := some playerEl }

/-- The same queue position under repeat-none. -/
def stopState : PState := { wrapState with repeatMode := .none }

/-- Witness for C4: repeat-all wraps to track 0 and plays it; repeat-none
stops cleanly. -/
theorem next_at_end_spec_witness :
    (playNext .ok 0 wrapState).queueIndex = 0 ∧
    (playNext .ok 0 wrapState).currentSong = some songA ∧
    (playNext .ok 0 wrapState).isPlaying = true ∧
    playNext .ok 0 stopState = stopPlayback stopState ∧
    (playNext .ok 0 stopState).isPlaying = false := by
  have h1 := next_at_end_spec.1 .ok 0 wrapState rfl rfl (by decide) (by decide) rfl
  have h2 := next_at_end_spec.2.1 .ok 0 stopState rfl rfl (by decide) (by decide) (by decide)
  have h3 := h1.2 songA (by rfl) (by decide)
  exact ⟨h1.1, h3.1, h3.2 playerEl rfl rfl, h2.1, h2.2.1⟩

/-! ## C3 — language-biased shuffle -/

/-- `playSong` never touches the cursor or playlist fields. -/
theorem playSong_fields (po : PlayOutcome) (x : Option Song) (s' : PState) :
    (playSong po x s').queueIndex = s'.queueIndex ∧
    (playSong po x s').activePlaylist = s'.activePlaylist := by
  cases x with
  | none => exact ⟨rfl, rfl⟩
  | some song => exact ⟨(proceed_fields po song s').2.1, (proceed_fields po song s').2.2.1⟩

/-- Every pool entry carries the playlist's language tag and indexes its
own song inside the track list. -/
theorem langPool_mem {tracks : List Song} {lang : String} {e : Nat × Song}
    (he : e ∈ langPool tracks lang) :
    e.2.language = some lang ∧ tracks.get? e.1 = some e.2 := by
  have h1 := List.mem_filter.mp he
  refine ⟨by simpa using h1.2, ?_⟩
  have h3 : (e.1, e.2) ∈ tracks.enum := by simpa using h1.1
  rw [List.mk_mem_enum_iff_getElem?] at h3
  simpa [List.get?_eq_getElem?] using h3

/-- Pool entries at distinct positions carry distinct track indices
(the enumeration indices are pairwise distinct and filtering preserves
that). -/
theorem pool_fst_inj {tracks : List Song} {lang : String} {i j : Nat}
    (hi : i < (langPool tracks lang).length) (hj : j < (langPool tracks lang).length)
    (heq : ((langPool tracks lang)[i]).1 = ((langPool tracks lang)[j]).1) : i = j := by
  have hnd : ((langPool tracks lang).map Prod.fst).Nodup :=
    List.Sublist.nodup ((List.filter_sublist _).map Prod.fst) (List.nodup_enum_map_fst _)
  rw [List.nodup_iff_injective_getElem] at hnd
  have hi2 : i < ((langPool tracks lang).map Prod.fst).length := by simpa using hi
  have hj2 : j < ((langPool tracks lang).map Prod.fst).length := by simpa using hj
  have key : (⟨i, hi2⟩ : Fin _) = ⟨j, hj2⟩ := hnd (by simpa [List.getElem_map] using heq)
  exact congrArg Fin.val key

/-- An admissible settled draw (the do/while exit condition) lands on a
pool entry whose track index differs from the current playlist index. -/
theorem pool_pick_ne_current {tracks : List Song} {lang : String} {pidx : Int} {k : Nat}
    (hk : k < (langPool tracks lang).length)
    (hadm : (k : Int) ≠ langCurPos (langPool tracks lang) pidx) :
    ((((langPool tracks lang)[k]).1 : Nat) : Int) ≠ pidx := by
  cases hfind : (langPool tracks lang).findIdx? (fun x => (x.1 : Int) == pidx) with
  | none =>
    rw [List.findIdx?_eq_none_iff] at hfind
    have h2 := hfind ((langPool tracks lang)[k]) (List.getElem_mem hk)
    simpa using h2
  | some c =>
    obtain ⟨hc, hpc, _⟩ := List.findIdx?_eq_some_iff_getElem.mp hfind
    have hcval : ((((langPool tracks lang)[c]).1 : Nat) : Int) = pidx := by simpa using hpc
    intro hcontra
    have heq2 : ((langPool tracks lang)[k]).1 = ((langPool tracks lang)[c]).1 := by
      have heq1 : ((((langPool tracks lang)[k]).1 : Nat) : Int)
          = ((((langPool tracks lang)[c]).1 : Nat) : Int) := by rw [hcontra, hcval]
      exact_mod_cast heq1
    have hkc : k = c := pool_fst_inj hk hc heq2
    apply hadm
    unfold langCurPos
    rw [hfind, hkc]

/-- Reduction of `playNext` in the shuffle-with-language branch when
the pool has more than one entry and the draw settles on entry `e`. -/
theorem playNext_lang_pool (po : PlayOutcome) (pick : Nat) (s : PState) (p : Playlist)
    (lang : String) (pidx : Int) (e : Nat × Song)
    (hap : s.activePlaylist = some p) (hsh : s.isShuffle = true)
    (hlang : playlistLanguage (some p) = some lang)
    (hlen : 1 < p.tracks.length) (hci : p.currentIndex = some pidx) (hp0 : 0 ≤ pidx)
    (hpool : 1 < (langPool p.tracks lang).length)
    (hget : (langPool p.tracks lang).get? (pick % (langPool p.tracks lang).length) = some e) :
    playNext po pick s =
      playSong po (listGetI p.tracks ((e.1 : Nat) : Int))
        { s with activePlaylist := some { p with currentIndex := some ((e.1 : Nat) : Int) },
                 queueIndex := ((e.1 : Nat) : Int) } := by
  unfold playNext
  rw [hap]
  dsimp only
  rw [hci]
  dsimp only
  rw [hsh, hlang]
  dsimp only
  rw [if_pos (show 0 < p.tracks.length ∧ (0 : Int) ≤ pidx by exact ⟨by omega, hp0⟩)]
  rw [if_pos (show true = true ∧ 1 < p.tracks.length by exact ⟨rfl, hlen⟩)]
  rw [if_pos hpool, hget]

/-- Reduction of `playNext` in the shuffle-with-language branch when
the pool has at most one entry: sequential advance with an
unconditional wrap to 0 at the end, regardless of the repeat mode. -/
theorem playNext_lang_single (po : PlayOutcome) (pick : Nat) (s : PState) (p : Playlist)
    (lang : String) (pidx : Int)
    (hap : s.activePlaylist = some p) (hsh : s.isShuffle = true)
    (hlang : playlistLanguage (some p) = some lang)
    (hlen : 1 < p.tracks.length) (hci : p.currentIndex = some pidx) (hp0 : 0 ≤ pidx)
    (hpool : ¬ 1 < (langPool p.tracks lang).length) (nxt : Int)
    (hnxt : nxt = if (p.tracks.length : Int) ≤ pidx + 1 then 0 else pidx + 1) :
    playNext po pick s =
      playSong po (listGetI p.tracks nxt)
        { s with activePlaylist := some { p with currentIndex := some nxt },
                 queueIndex := nxt } := by
  subst hnxt
  unfold playNext
  rw [hap]
  dsimp only
  rw [hci]
  dsimp only
  rw [hsh, hlang]
  dsimp only
  rw [if_pos (show 0 < p.tracks.length ∧ (0 : Int) ≤ pidx by exact ⟨by omega, hp0⟩)]
  rw [if_pos (show true = true ∧ 1 < p.tracks.length by exact ⟨rfl, hlen⟩)]
  rw [if_neg hpool]

/-- C3 as amended: with shuffle on and an ActivePlaylist carrying a
truthy language tag, `playNext` restricts the candidate pool to tracks
sharing the PLAYLIST's language tag (not the current track's language —
the two can differ).  When the pool has more than one member, every
admissible settled draw (the do/while exit condition on the re-draw
loop) picks a pool entry: the chosen index lies in the pool, carries
the playlist language, and differs from the current playlist index; the
cursor (both the playlist's `currentIndex` and `queueIndex`) moves to
it and its track plays.  When the pool has at most one member, the
fallback is a plain sequential advance that wraps to 0 past the end
UNCONDITIONALLY — it does not consult `repeatMode`, unlike the
non-shuffle rule which stops unless repeat-all. -/
theorem shuffle_language_spec :
    (∀ po pick (s : PState) (p : Playlist) (lang : String) (pidx : Int) (e : Nat × Song),
      s.activePlaylist = some p → s.isShuffle = true →
      playlistLanguage (some p) = some lang →
      1 < p.tracks.length → p.currentIndex = some pidx → 0 ≤ pidx →
      1 < (langPool p.tracks lang).length →
      (langPool p.tracks lang).get? (pick % (langPool p.tracks lang).length) = some e →
      ((pick % (langPool p.tracks lang).length : Nat) : Int)
          ≠ langCurPos (langPool p.tracks lang) pidx →
      e ∈ langPool p.tracks lang ∧
      e.2.language = some lang ∧
      ((e.1 : Nat) : Int) ≠ pidx ∧
      (playNext po pick s).queueIndex = ((e.1 : Nat) : Int) ∧
      (playNext po pick s).activePlaylist
          = some { p with currentIndex := some ((e.1 : Nat) : Int) } ∧
      (playFailsB e.2 = false → (playNext po pick s).currentSong = some e.2)) ∧
    (∀ po pick (s : PState) (p : Playlist) (lang : String) (pidx : Int),
      s.activePlaylist = some p → s.isShuffle = true →
      playlistLanguage (some p) = some lang →
      1 < p.tracks.length → p.currentIndex = some pidx → 0 ≤ pidx →
      (langPool p.tracks lang).length ≤ 1 →
      ∃ nxt : Int, nxt = (if (p.tracks.length : Int) ≤ pidx + 1 then 0 else pidx + 1) ∧
        (playNext po pick s).queueIndex = nxt ∧
        (playNext po pick s).activePlaylist = some { p with currentIndex := some nxt }) := by
  constructor
  · intro po pick s p lang pidx e hap hsh hlang hlen hci hp0 hpool hget hadm
    rw [List.get?_eq_getElem?] at hget
    obtain ⟨hk, hke⟩ := List.getElem?_eq_some_iff.mp hget
    have hmem : e ∈ langPool p.tracks lang := hke ▸ List.getElem_mem hk
    have hlp := langPool_mem hmem
    have hne : ((e.1 : Nat) : Int) ≠ pidx := by
      have h2 := pool_pick_ne_current hk hadm
      rwa [hke] at h2
    have hred := playNext_lang_pool po pick s p lang pidx e hap hsh hlang hlen hci hp0 hpool
      (by rw [List.get?_eq_getElem?]; exact hget)
    rw [hred]
    refine ⟨hmem, hlp.1, hne, ?_, ?_, ?_⟩
    · exact (playSong_fields po _ _).1.trans rfl
    · exact (playSong_fields po _ _).2.trans rfl
    · intro hfail
      have hlg : listGetI p.tracks ((e.1 : Nat) : Int) = some e.2 := by
        simpa [listGetI] using hlp.2
      rw [hlg]
      exact (proceed_plays po e.2 _ hfail).1
  · intro po pick s p lang pidx hap hsh hlang hlen hci hp0 hpool
    have hred := playNext_lang_single po pick s p lang pidx hap hsh hlang hlen hci hp0
      (by omega) _ rfl
    refine ⟨_, rfl, ?_, ?_⟩
    · rw [hred]
      exact (playSong_fields po _ _).1.trans rfl
    · rw [hred]
      exact (playSong_fields po _ _).2.trans rfl

/-- Hindi-tagged track. -/
def songH : Song :=
  { id := "h1", name := "H1", url := "urlH1.mp3", downloadUrl := none, language := some "hindi" }

/-- Second hindi-tagged track. -/
def songH2 : Song :=
  { id := "h2", name := "H2", url := "urlH2.mp3", downloadUrl := none, language := some "hindi" }

/-- Third hindi-tagged track. -/
def songH3 : Song :=
  { id := "h3", name := "H3", url := "urlH3.mp3", downloadUrl := none, language := some "hindi" }

/-- Tamil-tagged track. -/
def songT : Song :=
  { id := "t1", name := "T1", url := "urlT1.mp3", downloadUrl := none, language := some "tamil" }

/-- A hindi-tagged playlist whose current track (index 1) is tamil:
only one track shares the playlist language. -/
def langPlaylist : Playlist :=
  { id := "p", name := "P", tracks := [songH, songT], currentIndex := some 1,
    language := some "hindi" }

/-- Shuffle on, repeat off, playing the tamil track of `langPlaylist`. -/
def shuffleLangState : PState :=
  { currentSong := some songT, isPlaying := true, queue := [songH, songT], queueIndex := 1,
    activePlaylist := some langPlaylist, repeatMode := .none, isShuffle := true, volume := 1,
    currentTime := 100, duration := 180, error := none, currentAudioInfo := none,
    audio := some playerEl }

/-- C3 counterexample: the claim says a singleton pool falls back to
the same repeat-aware ±1 rule as non-shuffle `next()`, which at the
last index under repeat-none stops playback without advancing.  The
code instead wraps unconditionally: from the last index with
`repeatMode = none` it moves the cursor to 0 and keeps playing.  (The
pool here is also filtered by the playlist's `hindi` tag although the
current track is tamil.) -/
theorem shuffle_lang_fallback_cex :
    shuffleLangState.repeatMode = RepeatMode.none ∧
    shuffleLangState.isShuffle = true ∧
    (langPool [songH, songT] "hindi").length = 1 ∧
    (playNext .ok 0 shuffleLangState).queueIndex = 0 ∧
    (playNext .ok 0 shuffleLangState).currentSong = some songH ∧
    (playNext .ok 0 shuffleLangState).isPlaying = true := by
  decide

/-- A four-track playlist, three hindi and one tamil, cursor at 0. -/
def bigLangPlaylist : Playlist :=
  { id := "q", name := "Q", tracks := [songH, songH2, songH3, songT], currentIndex := some 0,
    language := some "hindi" }

/-- Shuffle on over `bigLangPlaylist`. -/
def bigShuffleState : PState :=
  { currentSong := some songH, isPlaying := true, queue := [songH, songH2, songH3, songT],
    queueIndex := 0, activePlaylist := some bigLangPlaylist, repeatMode := .none,
    isShuffle := true, volume := 1, currentTime := 50, duration := 180, error := none,
    currentAudioInfo := none, audio := some playerEl }

/-- Witness for C3: an admissible draw over the three-member hindi pool
moves the cursor to pool entry 1 and plays it; the singleton-pool state
wraps to 0. -/
theorem shuffle_language_spec_witness :
    (playNext .ok 1 bigShuffleState).queueIndex = 1 ∧
    (playNext .ok 1 bigShuffleState).currentSong = some songH2 ∧
    (playNext .ok 0 shuffleLangState).queueIndex = 0 := by
  have h1 := shuffle_language_spec.1 .ok 1 bigShuffleState bigLangPlaylist "hindi" 0
    (1, songH2) rfl rfl (by decide) (by decide) rfl (by decide) (by decide) (by decide)
    (by decide)
  have h2 := shuffle_language_spec.2 .ok 0 shuffleLangState langPlaylist "hindi" 1
    rfl rfl (by decide) (by decide) rfl (by decide) (by decide)
  obtain ⟨nxt, hnxt, hq, hapl⟩ := h2
  refine ⟨h1.2.2.2.1, h1.2.2.2.2.2 (by decide), ?_⟩
  rw [hq, hnxt]
  decide
